import Mathlib

/-!  Verification development for the CSV import pipeline
(`import_postcodes.py`, `import_vehicle_factors.py`,
`import_yearly_mileage_factors.py`): a shallow embedding of the loaders
(CSV normalisation / validation) and of the existence-check-then-insert
reconciliation functions, together with proofs about them.

Modelling conventions:
* factor values are modelled exactly: the pipeline only parses factor
  cells, stores the values and compares keys — it never computes with the
  floats — so a float value is represented as a normalised decimal
  (integer mantissa and power-of-ten scale), on which equality agrees with
  float equality for the decimal literals the pipeline reads;
* a CSV file is modelled as an optional `CsvFile` (`none` = the path does
  not exist) holding the header row and the data rows as lists of cell
  strings;
* the database cursor is modelled as an explicit store value plus a trace
  of the statements executed against it;
* store failures (`psycopg2` errors raised by `cur.execute`) are modelled
  by a predicate selecting the keys whose existence check raises. -/

namespace SetInitialData

/-- Python `str.strip()` with no argument (whitespace stripping), as applied
by `.str.strip()` in the loaders. -/
def pyTrim (s : String) : String :=
  String.mk (((s.toList.dropWhile Char.isWhitespace).reverse.dropWhile
    Char.isWhitespace).reverse)

/-- Python `str.strip(c)` for the double-quote character: removes all leading
and trailing `"` characters, as applied by `.str.strip(QUOTE)`. -/
def stripQuotes (s : String) : String :=
  String.mk (((s.toList.dropWhile (fun c => c = '"')).reverse.dropWhile
    (fun c => c = '"')).reverse)

/-- Numeric value of a list of decimal digit characters. -/
def digitsToNat (l : List Char) : Nat :=
  l.foldl (fun n c => 10 * n + (c.toNat - 48)) 0

/-- Exact value of a parsed float cell: `mant / 10 ^ scale`, with the scale
minimal (no trailing zeros in the fraction), so that structural equality
coincides with numeric equality. -/
structure PyFloat where
  mant : Int
  scale : Nat
deriving DecidableEq, Repr

/-- The float value `1.0` (the neutral default factor). -/
def pyFloatOne : PyFloat := ⟨1, 0⟩

/-- Build the decimal value `ip . fp` (negated when `neg`), dropping
trailing zeros of the fraction so the representation is canonical. -/
def mkPyFloat (neg : Bool) (ip fp : List Char) : PyFloat :=
  let fp' := (fp.reverse.dropWhile (fun c => c = '0')).reverse
  let m : Int := (digitsToNat ip * 10 ^ fp'.length + digitsToNat fp' : Nat)
  ⟨if neg then -m else m, fp'.length⟩

/-- Unsigned part of Python `float(...)`: an integer part and an optional
fractional part (the inputs this pipeline reads are plain decimal
literals). -/
def parseUnsignedFloat (neg : Bool) (l : List Char) : Option PyFloat :=
  let (ip, rest) := l.span Char.isDigit
  if ip = [] then none
  else
    match rest with
    | [] => some (mkPyFloat neg ip [])
    | '.' :: fp =>
        if fp.all Char.isDigit then some (mkPyFloat neg ip fp) else none
    | _ => none

/-- pandas `astype(float)` on one cell: leading/trailing whitespace is
ignored, then a signed decimal literal is parsed; anything else raises
(modelled as `none`). -/
def parseFloat? (s : String) : Option PyFloat :=
  match (pyTrim s).toList with
  | '-' :: rest => parseUnsignedFloat true rest
  | l => parseUnsignedFloat false l

/-- A CSV file as pandas parses it: the header row and the data rows. -/
structure CsvFile where
  headers : List String
  rows : List (List String)
deriving DecidableEq, Repr

/-- The failure kinds of the loaders (spec taxonomy §7): missing file,
zero data rows, missing required columns, column-wide type-coercion
failure. -/
inductive LoadError
  | NotFound
  | Empty
  | SchemaInvalid
  | TypeInvalid
deriving DecidableEq, Repr

/-- `df[name][i]` for one row: cell of `row` in the column whose (trimmed)
header equals `name`. -/
def getCell (hs : List String) (row : List String) (name : String) : Option String :=
  (hs.findIdx? (fun h => h = name)).bind (fun i => row.get? i)

/-- `mapOpt g l` is `some` of the image when `g` succeeds on every element,
`none` otherwise (column-wide coercion: one bad cell fails the column). -/
def mapOpt (g : α → Option β) : List α → Option (List β)
  | [] => some []
  | a :: as =>
    match g a, mapOpt g as with
    | some b, some bs => some (b :: bs)
    | _, _ => none

/-- Python `dict` insertion: an existing key keeps its position but its
value is overwritten; a new key is appended. -/
def dictInsert (d : List (String × PyFloat)) (k : String) (v : PyFloat) :
    List (String × PyFloat) :=
  if d.any (fun p => p.1 = k) then
    d.map (fun p => if p.1 = k then (k, v) else p)
  else d ++ [(k, v)]

/-- `dict(zip(keys, values))` over an entry list, left to right. -/
def dictOf (entries : List (String × PyFloat)) : List (String × PyFloat) :=
  entries.foldl (fun d p => dictInsert d p.1 p.2) []

/-- Dictionary lookup (`d.get(k)`). -/
def dlookup (d : List (String × PyFloat)) (k : String) : Option PyFloat :=
  (d.find? (fun p => p.1 = k)).map (fun p => p.2)

/-- One row's contribution to the region-factor mapping
(`import_postcodes.load_region_factors`, lines 49-51): the REGION1 cell
stripped of whitespace then of quotes, and the REGION_FACTOR cell coerced
to float. -/
def regionRowEntry (hs : List String) (row : List String) :
    Option (String × PyFloat) :=
  match getCell hs row "REGION1", getCell hs row "REGION_FACTOR" with
  | some kc, some vc =>
    match parseFloat? vc with
    | some v => some (stripQuotes (pyTrim kc), v)
    | none => none
  | _, _ => none

/-- `import_postcodes.load_region_factors`: missing file, empty-file and
missing-column checks in source order, then the per-row normalisation and
`dict(zip(...))`. -/
def load_region_factors (file : Option CsvFile) :
    Except LoadError (List (String × PyFloat)) :=
  match file with
  | none => .error .NotFound
  | some f =>
    if f.rows = [] then .error .Empty
    else
      let hs := f.headers.map pyTrim
      if "REGION1" ∈ hs ∧ "REGION_FACTOR" ∈ hs then
        match mapOpt (regionRowEntry hs) f.rows with
        | some entries => .ok (dictOf entries)
        | none => .error .TypeInvalid
      else .error .SchemaInvalid

/-- The trimmed, quote-stripped REGION1 value of a row. -/
def regionKeyOf (hs : List String) (row : List String) : Option String :=
  (getCell hs row "REGION1").map (fun c => stripQuotes (pyTrim c))

/-- `re.search` of the pattern `five digits` as used by
`df[POSTCODE].str.extract` (`import_postcodes.load_csv`, line 84): scan left
to right for the first position at which five consecutive decimal digits
match, and return those five characters. -/
def findRun5 : List Char → Option (List Char)
  | [] => none
  | c :: cs =>
    if ((c :: cs).take 5).length = 5 ∧ ((c :: cs).take 5).all Char.isDigit
    then some ((c :: cs).take 5)
    else findRun5 cs

/-- The postcode-field normalisation of `load_csv`: `astype(str).str.strip()`
then regex extraction of the first 5-digit match. -/
def extract5 (s : String) : Option String :=
  (findRun5 (pyTrim s).toList).map String.mk

/-- Python `str.zfill(5)`: left-pad with `0` to length 5
(`load_csv`, line 94). -/
def zfill5 (s : String) : String :=
  String.mk (List.replicate (5 - s.toList.length) '0' ++ s.toList)

/-- A normalised postcode record: the two projected columns of the
headerless postcode CSV (index 2 = region, index 6 = postcode). -/
structure PRec where
  region : String
  postcode : String
deriving DecidableEq, Repr

/-- `df = df[[2, 6]]` with `dropna` (`load_csv`, lines 75-78): project the
region and postcode columns; rows without both cells — pandas `NaN`,
modelled by rows shorter than the projected indices — are removed. -/
def projPostcodeRows (rows : List (List String)) : List (String × String) :=
  rows.filterMap (fun r =>
    match r.get? 2, r.get? 6 with
    | some rc, some pc => some (rc, pc)
    | _, _ => none)

/-- `import_postcodes.load_csv` on a headerless CSV (modelled as the list of
its rows): existence / emptiness / column-count checks in source order,
projection of columns 2 and 6, postcode extraction with the count of
dropped rows, and region normalisation on the surviving rows. -/
def load_csv (file : Option (List (List String))) :
    Except LoadError (List PRec × Nat) :=
  match file with
  | none => .error .NotFound
  | some rows =>
    if rows = [] then .error .Empty
    else if ((rows.head?.map List.length).getD 0) < 7 then .error .SchemaInvalid
    else
      let proj := projPostcodeRows rows
      let extracted := proj.map (fun p => (p.1, extract5 p.2))
      let invalid := (extracted.filter (fun p => p.2 = none)).length
      let kept := extracted.filterMap (fun p =>
        p.2.map (fun pc => PRec.mk (stripQuotes (pyTrim p.1)) (zfill5 pc)))
      .ok (kept, invalid)

/-- A persisted row of the `regions` table. -/
structure RegionRow where
  id : Nat
  region : String
  region_factor : PyFloat
deriving DecidableEq, Repr

/-- A persisted row of the `postcodes` table. -/
structure PostcodeRow where
  region_id : Nat
  postcode : String
deriving DecidableEq, Repr

/-- The store state visible to `insert_postcodes`: the two tables plus the
id sequence backing `RETURNING id`. -/
structure PStore where
  regions : List RegionRow
  postcodes : List PostcodeRow
  nextId : Nat
deriving DecidableEq, Repr

/-- The statements `insert_postcodes` executes against the cursor. -/
inductive POp
  | selectRegion (region : String)
  | insertRegion (region : String) (factor : PyFloat)
  | selectAllPostcodes
  | insertPostcode (region_id : Nat) (postcode : String)
deriving DecidableEq, Repr

/-- pandas `Series.unique()`: distinct values in first-seen order. -/
def firstSeen {α : Type} [DecidableEq α] : List α → List α
  | [] => []
  | a :: as => a :: (firstSeen as).filter (fun b => ¬ b = a)

/-- The `region` column of the `regions` table. -/
def regionNames (s : PStore) : List String :=
  s.regions.map (fun row => row.region)

/-- `SELECT postcode FROM postcodes` (the global exclusion set). -/
def storedPostcodes (s : PStore) : List String :=
  s.postcodes.map (fun row => row.postcode)

/-- `df[df[REGION] == region][POSTCODE].unique().tolist()`
(`insert_postcodes`, line 132). -/
def postcodesOf (df : List PRec) (r : String) : List String :=
  firstSeen ((df.filter (fun x => x.region = r)).map (fun x => x.postcode))

/-- Lines 132-146 of `insert_postcodes`: fetch the whole postcode table,
and insert one row per distinct postcode of this region that is absent
from it, linked to the resolved region id. -/
def postcodePhase (df : List PRec) (r : String) (rid : Nat) (s : PStore)
    (tr0 : List POp) : PStore × List POp :=
  let region_list := postcodesOf df r
  let existing := storedPostcodes s
  let news := region_list.filter (fun p => ¬ p ∈ existing)
  (⟨s.regions, s.postcodes ++ news.map (fun p => PostcodeRow.mk rid p), s.nextId⟩,
   tr0 ++ [POp.selectAllPostcodes] ++ news.map (fun p => POp.insertPostcode rid p))

/-- One iteration of the region loop of `insert_postcodes` (lines 108-146):
factor lookup with the 1.0 default, existence check on the region, insert
with `RETURNING id` when absent, then the postcode phase. -/
def processRegion (df : List PRec) (rf : String → Option PyFloat) (r : String)
    (s : PStore) : PStore × List POp :=
  let factor := (rf r).getD pyFloatOne
  match s.regions.find? (fun row => row.region = r) with
  | some row => postcodePhase df r row.id s [POp.selectRegion r]
  | none =>
      postcodePhase df r s.nextId
        ⟨s.regions ++ [⟨s.nextId, r, factor⟩], s.postcodes, s.nextId + 1⟩
        [POp.selectRegion r, POp.insertRegion r factor]

/-- The region loop of `insert_postcodes`, with store failures: `fail r`
true means the existence check `SELECT id FROM regions WHERE region = r`
raises.  The `try/except` of `insert_postcodes` wraps the WHOLE loop and
re-raises (lines 104, 149-151), so an exception aborts the remaining
iterations; `.error` carries the store and trace at the abort. -/
def goRegionsE (fail : String → Bool) (df : List PRec)
    (rf : String → Option PyFloat) :
    List String → PStore → Except (PStore × List POp) (PStore × List POp)
  | [], s => .ok (s, [])
  | r :: rs, s =>
    if fail r then .error (s, []) else
    let step := processRegion df rf r s
    match goRegionsE fail df rf rs step.1 with
    | .ok res => .ok (res.1, step.2 ++ res.2)
    | .error res => .error (res.1, step.2 ++ res.2)

/-- The region loop without store failures. -/
def goRegions (df : List PRec) (rf : String → Option PyFloat) :
    List String → PStore → PStore × List POp
  | [], s => (s, [])
  | r :: rs, s =>
    let step := processRegion df rf r s
    let rest := goRegions df rf rs step.1
    (rest.1, step.2 ++ rest.2)

/-- `import_postcodes.insert_postcodes` against a store in which the
existence check raises exactly on the regions selected by `fail`. -/
def insert_postcodesE (fail : String → Bool) (df : List PRec)
    (rf : String → Option PyFloat) (s : PStore) :
    Except (PStore × List POp) (PStore × List POp) :=
  goRegionsE fail df rf (firstSeen (df.map (fun x => x.region))) s

/-- `import_postcodes.insert_postcodes` against a store that never fails:
iterate the distinct regions of `df` in first-seen order. -/
def insert_postcodes (df : List PRec) (rf : String → Option PyFloat)
    (s : PStore) : PStore × List POp :=
  goRegions df rf (firstSeen (df.map (fun x => x.region))) s

/-- Whether a traced statement is an `INSERT`. -/
def isInsertOp : POp → Bool
  | .insertRegion _ _ => true
  | .insertPostcode _ _ => true
  | _ => false

/-- Number of `INSERT` statements in a trace. -/
def insertCount (tr : List POp) : Nat := (tr.filter isInsertOp).length

/-- The regions whose existence check was executed, in trace order. -/
def attemptedRegions (tr : List POp) : List String :=
  tr.filterMap (fun op =>
    match op with
    | POp.selectRegion r => some r
    | _ => none)

/-- A normalised vehicle-factor record (one row of the loaded vehicle
DataFrame: VEHICLE_TYPE and VEHICLE_FACTOR). -/
structure VRec where
  vehicle_type : String
  vehicle_factor : PyFloat
deriving DecidableEq, Repr

/-- A persisted row of the `vehicle` table. -/
structure VehicleRow where
  id : Nat
  vehicle_type : String
  vehicle_factor : PyFloat
deriving DecidableEq, Repr

/-- The store state visible to `insert_vehicle_factors`. -/
structure VStore where
  vehicle : List VehicleRow
  nextId : Nat
deriving DecidableEq, Repr

/-- The statements `insert_vehicle_factors` executes against the cursor. -/
inductive VOp
  | selectVehicle (vehicle_type : String)
  | insertVehicle (vehicle_type : String) (factor : PyFloat)
deriving DecidableEq, Repr

/-- `df[df[TYPE] == vt][FACTOR].values[0]` (`insert_vehicle_factors`,
line 75): the factor of the first source occurrence of the type.  (The
default is unreachable: the loop only iterates types present in `df`.) -/
def firstVehicleFactor (df : List VRec) (vt : String) : PyFloat :=
  ((df.find? (fun x => x.vehicle_type = vt)).map
    (fun x => x.vehicle_factor)).getD pyFloatOne

/-- The vehicle-type loop of `insert_vehicle_factors` (lines 74-92):
existence check by type, insert when absent. -/
def goVehicles (df : List VRec) : List String → VStore → VStore × List VOp
  | [], s => (s, [])
  | vt :: vts, s =>
    let factor := firstVehicleFactor df vt
    match s.vehicle.find? (fun row => row.vehicle_type = vt) with
    | some _ =>
        let rest := goVehicles df vts s
        (rest.1, VOp.selectVehicle vt :: rest.2)
    | none =>
        let s' : VStore := ⟨s.vehicle ++ [⟨s.nextId, vt, factor⟩], s.nextId + 1⟩
        let rest := goVehicles df vts s'
        (rest.1, VOp.selectVehicle vt :: VOp.insertVehicle vt factor :: rest.2)

/-- `import_vehicle_factors.insert_vehicle_factors`: iterate
`df[VEHICLE_TYPE].unique()` (distinct types, first-seen order). -/
def insert_vehicle_factors (df : List VRec) (s : VStore) : VStore × List VOp :=
  goVehicles df (firstSeen (df.map (fun x => x.vehicle_type))) s

/-- Number of `INSERT` statements in a vehicle trace. -/
def vInsertCount (tr : List VOp) : Nat :=
  (tr.filter (fun op =>
    match op with
    | VOp.insertVehicle _ _ => true
    | _ => false)).length

/-- The `(vehicle_type, vehicle_factor)` pairs of the `vehicle` table. -/
def vehiclePairs (s : VStore) : List (String × PyFloat) :=
  s.vehicle.map (fun row => (row.vehicle_type, row.vehicle_factor))

/-- A normalised yearly-mileage record (one row of the loaded mileage
DataFrame: YEARLY_MILEAGE_FROM, YEARLY_MILEAGE_TO, FACTOR). -/
structure MRec where
  yearly_mileage_from : Int
  yearly_mileage_to : Int
  factor : PyFloat
deriving DecidableEq, Repr

/-- pandas `to_numeric` on one cell holding an integer literal
(`errors="coerce"` then `astype(int)`: an unparsable cell becomes `NaN`
and the integer cast raises, modelled as `none`). -/
def parseInt? (s : String) : Option Int :=
  match (pyTrim s).toList with
  | '-' :: rest =>
      if ¬ rest = [] ∧ rest.all Char.isDigit
      then some (-(digitsToNat rest : Int)) else none
  | l => if ¬ l = [] ∧ l.all Char.isDigit then some (digitsToNat l : Int) else none

/-- The YEARLY_MILEAGE_TO cell transformation
(`load_yearly_milaege_factors`, lines 34-37): `astype(str).str.strip()
.str.strip(QUOTE)`, then `.replace` of the literal string `-1` by
`100_000_000`, then numeric coercion to int. -/
def toCellValue (cell : String) : Option Int :=
  let s := stripQuotes (pyTrim cell)
  if s = "-1" then some 100000000 else parseInt? s

/-- One row of the mileage CSV as a normalised record. -/
def mileageRowRec (hs : List String) (row : List String) : Option MRec :=
  match getCell hs row "YEARLY_MILEAGE_FROM", getCell hs row "YEARLY_MILEAGE_TO",
      getCell hs row "FACTOR" with
  | some fc, some tc, some xc =>
    match parseInt? fc, toCellValue tc, parseFloat? xc with
    | some f, some t, some x => some ⟨f, t, x⟩
    | _, _, _ => none
  | _, _, _ => none

/-- `import_yearly_mileage_factors.load_yearly_milaege_factors`: existence /
emptiness / required-column checks in source order, then the column
coercions (FROM to int, TO with the `-1 → 100_000_000` special case,
FACTOR to float). -/
def load_yearly_milaege_factors (file : Option CsvFile) :
    Except LoadError (List MRec) :=
  match file with
  | none => .error .NotFound
  | some f =>
    if f.rows = [] then .error .Empty
    else
      let hs := f.headers.map pyTrim
      if "YEARLY_MILEAGE_FROM" ∈ hs ∧ "YEARLY_MILEAGE_TO" ∈ hs ∧ "FACTOR" ∈ hs
      then
        match mapOpt (mileageRowRec hs) f.rows with
        | some recs => .ok recs
        | none => .error .TypeInvalid
      else .error .SchemaInvalid

/-- A persisted row of the `yearly_mileage` table. -/
structure MileageRow where
  id : Nat
  yearly_mileage_from : Int
  yearly_mileage_to : Int
  yearly_mileage_factor : PyFloat
deriving DecidableEq, Repr

/-- The store state visible to `insert_yearly_mileage_factors`. -/
structure MStore where
  yearly_mileage : List MileageRow
  nextId : Nat
deriving DecidableEq, Repr

/-- The statements and error-log events of `insert_yearly_mileage_factors`;
`logRangeError` records the per-item `except` branch with the offending
range. -/
inductive MOp
  | selectMileage (mfrom mto : Int)
  | insertMileage (mfrom mto : Int) (factor : PyFloat)
  | logRangeError (mfrom mto : Int)
deriving DecidableEq, Repr

/-- The factor resolved for one `(from, to)` pair (`values[0]` of the rows
of `df` matching the pair, line 67-70; the default is unreachable for the
pairs the loop iterates). -/
def firstMileageFactor (df : List MRec) (pr : Int × Int) : PyFloat :=
  ((df.find? (fun x =>
    x.yearly_mileage_from = pr.1 ∧ x.yearly_mileage_to = pr.2)).map
      (fun x => x.factor)).getD pyFloatOne

/-- The range loop of `insert_yearly_mileage_factors` (lines 62-94), with
its per-item `try/except`: when the existence check for a pair raises
(`fail pr`), the error is logged with the offending range and the loop
continues with the remaining pairs. -/
def goMileages (fail : Int × Int → Bool) (df : List MRec) :
    List (Int × Int) → MStore → MStore × List MOp
  | [], s => (s, [])
  | pr :: prs, s =>
    if fail pr then
      let rest := goMileages fail df prs s
      (rest.1, MOp.selectMileage pr.1 pr.2 :: MOp.logRangeError pr.1 pr.2 :: rest.2)
    else
      let factor := firstMileageFactor df pr
      match s.yearly_mileage.find? (fun row =>
        row.yearly_mileage_from = pr.1 ∧ row.yearly_mileage_to = pr.2) with
      | some _ =>
          let rest := goMileages fail df prs s
          (rest.1, MOp.selectMileage pr.1 pr.2 :: rest.2)
      | none =>
          let s' : MStore :=
            ⟨s.yearly_mileage ++ [⟨s.nextId, pr.1, pr.2, factor⟩], s.nextId + 1⟩
          let rest := goMileages fail df prs s'
          (rest.1, MOp.selectMileage pr.1 pr.2 ::
            MOp.insertMileage pr.1 pr.2 factor :: rest.2)

/-- `insert_yearly_mileage_factors` against a store whose existence check
raises exactly on the pairs selected by `fail`: iterate
`df[[FROM, TO]].drop_duplicates()` (distinct pairs, first-seen order). -/
def insert_yearly_mileage_factorsE (fail : Int × Int → Bool) (df : List MRec)
    (s : MStore) : MStore × List MOp :=
  goMileages fail df
    (firstSeen (df.map (fun x => (x.yearly_mileage_from, x.yearly_mileage_to)))) s

/-- `insert_yearly_mileage_factors` against a store that never fails. -/
def insert_yearly_mileage_factors (df : List MRec) (s : MStore) :
    MStore × List MOp :=
  insert_yearly_mileage_factorsE (fun _ => false) df s

/-- The ranges whose reconciliation was attempted, in trace order. -/
def attemptedMileages (tr : List MOp) : List (Int × Int) :=
  tr.filterMap (fun op =>
    match op with
    | MOp.selectMileage f t => some (f, t)
    | _ => none)

example : extract5 " \"79289\"" = some "79289" := by rfl

example : extract5 "123456" = some "12345" := by rfl

example : extract5 "not_a_postcode" = none := by rfl

example : extract5 "ab1234cd" = none := by rfl

example :
    load_csv (some [["DE", "DE-BW", "\"Baden\"", "F", "B", "M", "79289", "M2"],
      ["DE", "DE-BW", "X", "F", "B", "M", "not_a_postcode", "M2"]]) =
    .ok ([⟨"Baden", "79289"⟩], 1) := by rfl

example :
    insert_postcodes [⟨"A", "11111"⟩, ⟨"B", "11111"⟩]
      (fun _ => none) ⟨[], [], 0⟩ =
    (⟨[⟨0, "A", ⟨1, 0⟩⟩, ⟨1, "B", ⟨1, 0⟩⟩], [⟨0, "11111"⟩], 2⟩,
     [POp.selectRegion "A", POp.insertRegion "A" ⟨1, 0⟩, POp.selectAllPostcodes,
      POp.insertPostcode 0 "11111", POp.selectRegion "B",
      POp.insertRegion "B" ⟨1, 0⟩, POp.selectAllPostcodes]) := by rfl

example :
    load_region_factors (some ⟨["REGION1", " REGION_FACTOR"],
      [["\"Bayern\"", " 1.6"], [" \"Berlin\"", "1.22"]]⟩) =
    .ok [("Bayern", ⟨16, 1⟩), ("Berlin", ⟨122, 2⟩)] := by rfl

example :
    load_region_factors (some ⟨["REGION1", "REGION_FACTOR"],
      [["A", "1.10"], ["B", "2.0"], ["A", "3.5"]]⟩) =
    .ok [("A", ⟨35, 1⟩), ("B", ⟨2, 0⟩)] := by rfl

example : load_region_factors none = .error .NotFound := by rfl

example :
    load_region_factors (some ⟨["REGION1", "X"], []⟩) = .error .Empty := by rfl

/-! ### Basic lemmas about `firstSeen` and the dictionary model -/

theorem mem_firstSeen {α : Type} [DecidableEq α] (a : α) (l : List α) :
    a ∈ firstSeen l ↔ a ∈ l := by
  induction l with
  | nil => simp [firstSeen]
  | cons b bs ih =>
    by_cases hab : a = b
    · subst hab; simp [firstSeen]
    · simp [firstSeen, List.mem_filter, hab, ih]

theorem firstSeen_nodup {α : Type} [DecidableEq α] (l : List α) :
    (firstSeen l).Nodup := by
  induction l with
  | nil => simp [firstSeen]
  | cons b bs ih =>
    refine List.Nodup.cons ?_ (List.Nodup.filter _ ih)
    intro hb
    simp [List.mem_filter] at hb

theorem find?_update_self (d : List (String × PyFloat)) (k : String)
    (v : PyFloat) :
    (d.map (fun p => if p.1 = k then (k, v) else p)).find? (fun p => p.1 = k)
      = if d.any (fun p => p.1 = k) then some (k, v) else none := by
  induction d with
  | nil => simp
  | cons q qs ih =>
    by_cases hq : q.1 = k
    · simp [List.find?_cons, hq]
    · have hd : decide (q.1 = k) = false := by simp [hq]
      simp only [List.map_cons, List.find?_cons, List.any_cons]
      rw [if_neg hq]
      simp only [hd, Bool.false_or]
      exact ih

theorem find?_update_ne (d : List (String × PyFloat)) (k k' : String)
    (v : PyFloat) (hne : ¬ k' = k) :
    (d.map (fun p => if p.1 = k then (k, v) else p)).find? (fun p => p.1 = k')
      = d.find? (fun p => p.1 = k') := by
  induction d with
  | nil => simp
  | cons q qs ih =>
    by_cases hq : q.1 = k
    · have h1 : ¬ (k = k') := fun hh => hne hh.symm
      have h2 : ¬ (q.1 = k') := fun hh => h1 (hq.symm.trans hh)
      simp [List.find?_cons, hq, h1, h2, hne, ih]
    · by_cases hq' : q.1 = k'
      · simp [List.find?_cons, hq, hq', hne]
      · simp [List.find?_cons, hq, hq', hne, ih]

theorem find?_eq_none_of_any_false (d : List (String × PyFloat)) (k : String)
    (h : ¬ d.any (fun p => p.1 = k) = true) :
    d.find? (fun p => p.1 = k) = none := by
  rw [List.find?_eq_none]
  intro p hp
  simp only [List.any_eq_true, decide_eq_true_eq] at h
  simp only [decide_eq_true_eq]
  exact fun hk => h ⟨p, hp, hk⟩

theorem dlookup_dictInsert_self (d : List (String × PyFloat)) (k : String)
    (v : PyFloat) : dlookup (dictInsert d k v) k = some v := by
  unfold dictInsert dlookup
  by_cases h : d.any (fun p => p.1 = k) = true
  · rw [if_pos h, find?_update_self, if_pos h]
    rfl
  · rw [if_neg h, List.find?_append, find?_eq_none_of_any_false d k h]
    simp [List.find?_cons]

theorem dlookup_dictInsert_ne (d : List (String × PyFloat)) (k k' : String)
    (v : PyFloat) (hne : ¬ k' = k) :
    dlookup (dictInsert d k v) k' = dlookup d k' := by
  unfold dictInsert dlookup
  by_cases h : d.any (fun p => p.1 = k) = true
  · rw [if_pos h, find?_update_ne d k k' v hne]
  · rw [if_neg h, List.find?_append]
    have h1 : ¬ (k = k') := fun hh => hne hh.symm
    cases hfind : d.find? (fun p => p.1 = k') <;>
      simp [hfind, List.find?_cons, h1]

theorem dlookup_dictOfAux (es : List (String × PyFloat))
    (d : List (String × PyFloat)) (k : String) :
    dlookup (es.foldl (fun d p => dictInsert d p.1 p.2) d) k =
      match (es.filter (fun p => p.1 = k)).getLast? with
      | some p => some p.2
      | none => dlookup d k := by
  induction es generalizing d with
  | nil => simp
  | cons e es ih =>
    simp only [List.foldl_cons]
    rw [ih]
    by_cases hk : e.1 = k
    · have hfc : List.filter (fun p => decide (p.1 = k)) (e :: es)
          = e :: es.filter (fun p => decide (p.1 = k)) := by
        simp [List.filter_cons, hk]
      rw [hfc]
      cases hfe : es.filter (fun p => decide (p.1 = k)) with
      | nil =>
        simp only [hfe] at *
        have := dlookup_dictInsert_self d e.1 e.2
        rw [hk] at this
        simp [this, hk]
      | cons q qs =>
        simp only [hfe] at *
        rw [List.getLast?_cons_cons]
        cases hql : (q :: qs).getLast? with
        | none => simp [List.getLast?_eq_none_iff] at hql
        | some p => simp [hql]
    · have hfc : List.filter (fun p => decide (p.1 = k)) (e :: es)
          = es.filter (fun p => decide (p.1 = k)) := by
        simp [List.filter_cons, hk]
      rw [hfc]
      cases hlast : (es.filter (fun p => decide (p.1 = k))).getLast? with
      | none =>
        have hne : ¬ k = e.1 := fun hh => hk hh.symm
        simp [hlast, dlookup_dictInsert_ne d e.1 k e.2 hne]
      | some p => simp [hlast]

/-- Looking a key up in `dict(zip(...))` yields the value of its LAST
occurrence in the entry list. -/
theorem dlookup_dictOf (es : List (String × PyFloat)) (k : String) :
    dlookup (dictOf es) k =
      ((es.filter (fun p => p.1 = k)).getLast?).map (fun p => p.2) := by
  unfold dictOf
  rw [dlookup_dictOfAux]
  cases hlast : (es.filter (fun p => p.1 = k)).getLast? <;>
    simp [hlast, dlookup]

/-- `mapOpt` succeeding is elementwise success, and the result agrees with
`filterMap`. -/
theorem mapOpt_eq_some_filterMap {α β : Type} (g : α → Option β)
    (l : List α) (bs : List β) (h : mapOpt g l = some bs) :
    l.filterMap g = bs := by
  induction l generalizing bs with
  | nil =>
    simp only [mapOpt] at h
    cases h
    simp
  | cons a as ih =>
    simp only [mapOpt] at h
    cases hga : g a with
    | none => rw [hga] at h; cases h
    | some b =>
      rw [hga] at h
      cases hrest : mapOpt g as with
      | none => rw [hrest] at h; cases h
      | some bs' =>
        rw [hrest] at h
        cases h
        simp [List.filterMap_cons, hga, ih bs' hrest]

theorem mapOpt_get? {α β : Type} (g : α → Option β) (l : List α)
    (bs : List β) (h : mapOpt g l = some bs) (i : Nat) :
    bs.get? i = (l.get? i).bind g := by
  induction l generalizing bs i with
  | nil =>
    simp only [mapOpt] at h
    cases h
    simp
  | cons a as ih =>
    simp only [mapOpt] at h
    cases hga : g a with
    | none => rw [hga] at h; cases h
    | some b =>
      rw [hga] at h
      cases hrest : mapOpt g as with
      | none => rw [hrest] at h; cases h
      | some bs' =>
        rw [hrest] at h
        cases h
        cases i with
        | zero => simp [hga]
        | succ j => simpa using ih bs' hrest j

/-! ### Characterisation of one region iteration of `insert_postcodes` -/

/-- The region id resolved in the region phase: the id of the first stored
row named `r` when present, otherwise the freshly generated id. -/
def resolvedRegionId (s : PStore) (r : String) : Nat :=
  match s.regions.find? (fun row => row.region = r) with
  | some row => row.id
  | none => s.nextId

theorem processRegion_fst (df : List PRec) (rf : String → Option PyFloat)
    (r : String) (s : PStore) :
    (processRegion df rf r s).1 =
      ⟨(if (s.regions.find? (fun row => row.region = r)).isSome then s.regions
        else s.regions ++ [⟨s.nextId, r, (rf r).getD pyFloatOne⟩]),
       s.postcodes ++ ((postcodesOf df r).filter
         (fun p => ¬ p ∈ storedPostcodes s)).map
           (fun p => PostcodeRow.mk (resolvedRegionId s r) p),
       if (s.regions.find? (fun row => row.region = r)).isSome then s.nextId
       else s.nextId + 1⟩ := by
  unfold processRegion postcodePhase
  cases hfind : s.regions.find? (fun row => row.region = r) <;>
    simp [hfind, storedPostcodes, resolvedRegionId]

theorem processRegion_snd (df : List PRec) (rf : String → Option PyFloat)
    (r : String) (s : PStore) :
    (processRegion df rf r s).2 =
      (if (s.regions.find? (fun row => row.region = r)).isSome
       then [POp.selectRegion r]
       else [POp.selectRegion r, POp.insertRegion r ((rf r).getD pyFloatOne)])
      ++ [POp.selectAllPostcodes]
      ++ ((postcodesOf df r).filter (fun p => ¬ p ∈ storedPostcodes s)).map
          (fun p => POp.insertPostcode (resolvedRegionId s r) p) := by
  unfold processRegion postcodePhase
  cases hfind : s.regions.find? (fun row => row.region = r) <;>
    simp [hfind, storedPostcodes, resolvedRegionId]

theorem storedPostcodes_processRegion (df : List PRec)
    (rf : String → Option PyFloat) (r : String) (s : PStore) :
    storedPostcodes (processRegion df rf r s).1 =
      storedPostcodes s ++ (postcodesOf df r).filter
        (fun p => ¬ p ∈ storedPostcodes s) := by
  rw [processRegion_fst]
  simp only [storedPostcodes, List.map_append, List.map_map]
  congr 1
  exact List.map_id _

theorem find?_region_eq_none_iff (s : PStore) (r : String) :
    s.regions.find? (fun row => row.region = r) = none ↔
      ¬ r ∈ regionNames s := by
  rw [List.find?_eq_none]
  constructor
  · intro h hr
    obtain ⟨row, hrow, hname⟩ := List.mem_map.mp hr
    have := h row hrow
    simp [hname] at this
  · intro h row hrow
    simp only [decide_eq_true_eq]
    exact fun hname => h (List.mem_map.mpr ⟨row, hrow, hname⟩)

theorem mem_regionNames_processRegion (df : List PRec)
    (rf : String → Option PyFloat) (r r' : String) (s : PStore) :
    r' ∈ regionNames (processRegion df rf r s).1 ↔
      r' ∈ regionNames s ∨ r' = r := by
  rw [processRegion_fst]
  cases hfind : s.regions.find? (fun row => row.region = r) with
  | some row =>
    have hmem : r ∈ regionNames s := by
      have h1 := List.mem_of_find?_eq_some hfind
      have h2 := List.find?_some hfind
      simp only [decide_eq_true_eq] at h2
      exact List.mem_map.mpr ⟨row, h1, h2⟩
    simp only [hfind, Option.isSome_some, if_true, regionNames]
    constructor
    · exact fun h => Or.inl h
    · rintro (h | h)
      · exact h
      · exact h ▸ hmem
  | none => simp [hfind, regionNames]

theorem regions_processRegion_mono (df : List PRec)
    (rf : String → Option PyFloat) (r : String) (s : PStore)
    (row : RegionRow) (h : row ∈ s.regions) :
    row ∈ (processRegion df rf r s).1.regions := by
  rw [processRegion_fst]
  cases hfind : (s.regions.find? (fun x => x.region = r)).isSome <;>
    simp [hfind, h]

/-! ### Invariants of the region loop -/

theorem storedPostcodes_goRegions_mono (df : List PRec)
    (rf : String → Option PyFloat) (rs : List String) :
    ∀ (s : PStore) (p : String), p ∈ storedPostcodes s →
      p ∈ storedPostcodes (goRegions df rf rs s).1 := by
  induction rs with
  | nil => intro s p h; simpa [goRegions] using h
  | cons r rs ih =>
    intro s p h
    simp only [goRegions]
    apply ih
    rw [storedPostcodes_processRegion]
    exact List.mem_append_left _ h

theorem postcodesOf_mem_goRegions (df : List PRec)
    (rf : String → Option PyFloat) (rs : List String) :
    ∀ (s : PStore) (r : String), r ∈ rs → ∀ p ∈ postcodesOf df r,
      p ∈ storedPostcodes (goRegions df rf rs s).1 := by
  induction rs with
  | nil => intro s r h; cases h
  | cons r0 rs ih =>
    intro s r hr p hp
    simp only [goRegions]
    rcases List.mem_cons.mp hr with hr | hr
    · subst hr
      apply storedPostcodes_goRegions_mono
      rw [storedPostcodes_processRegion]
      by_cases hin : p ∈ storedPostcodes s
      · exact List.mem_append_left _ hin
      · refine List.mem_append_right _ ?_
        rw [List.mem_filter]
        exact ⟨hp, by simpa using hin⟩
    · exact ih _ r hr p hp

theorem mem_regionNames_goRegions (df : List PRec)
    (rf : String → Option PyFloat) (rs : List String) :
    ∀ (s : PStore) (r' : String),
      r' ∈ regionNames (goRegions df rf rs s).1 ↔
        r' ∈ regionNames s ∨ r' ∈ rs := by
  induction rs with
  | nil => intro s r'; simp [goRegions]
  | cons r rs ih =>
    intro s r'
    simp only [goRegions]
    rw [ih, mem_regionNames_processRegion]
    constructor
    · rintro ((h | h) | h)
      · exact Or.inl h
      · exact Or.inr (List.mem_cons.mpr (Or.inl h))
      · exact Or.inr (List.mem_cons.mpr (Or.inr h))
    · rintro (h | h)
      · exact Or.inl (Or.inl h)
      · rcases List.mem_cons.mp h with h | h
        · exact Or.inl (Or.inr h)
        · exact Or.inr h

theorem regions_goRegions_mono (df : List PRec)
    (rf : String → Option PyFloat) (rs : List String) :
    ∀ (s : PStore) (row : RegionRow), row ∈ s.regions →
      row ∈ (goRegions df rf rs s).1.regions := by
  induction rs with
  | nil => intro s row h; simpa [goRegions] using h
  | cons r rs ih =>
    intro s row h
    simp only [goRegions]
    exact ih _ row (regions_processRegion_mono df rf r s row h)

theorem insertCount_append (a b : List POp) :
    insertCount (a ++ b) = insertCount a + insertCount b := by
  simp [insertCount, List.filter_append]

theorem goRegions_stable (df : List PRec) (rf : String → Option PyFloat) :
    ∀ (rs : List String) (s : PStore),
      (∀ r ∈ rs, r ∈ regionNames s ∧
        ∀ p ∈ postcodesOf df r, p ∈ storedPostcodes s) →
      (goRegions df rf rs s).1 = s ∧ insertCount (goRegions df rf rs s).2 = 0 := by
  intro rs
  induction rs with
  | nil => intro s h; simp [goRegions, insertCount]
  | cons r rs ih =>
    intro s h
    obtain ⟨hname, hpcs⟩ := h r (List.mem_cons_self r rs)
    have hfind : (s.regions.find? (fun row => row.region = r)).isSome := by
      rcases List.mem_map.mp hname with ⟨row, hrow, heq⟩
      exact List.find?_isSome.mpr ⟨row, hrow, by simp [heq]⟩
    have hfilter : (postcodesOf df r).filter
        (fun p => ¬ p ∈ storedPostcodes s) = [] := by
      rw [List.filter_eq_nil_iff]
      intro p hp
      simpa using hpcs p hp
    have hstep1 : (processRegion df rf r s).1 = s := by
      rw [processRegion_fst]
      rw [hfilter]
      cases s with
      | mk regs pcs nid => simp [hfind]
    have hstep2 : insertCount (processRegion df rf r s).2 = 0 := by
      rw [processRegion_snd, hfilter]
      simp [hfind, insertCount, isInsertOp]
    have hrest := ih s (fun r' hr' => h r' (List.mem_cons_of_mem r hr'))
    constructor
    · simp only [goRegions]
      rw [hstep1]
      exact hrest.1
    · simp only [goRegions]
      rw [hstep1, insertCount_append, hstep2, hrest.2]

theorem goRegions_default_row (df : List PRec) (rf : String → Option PyFloat) :
    ∀ (rs : List String) (s : PStore) (r : String),
      r ∈ rs → ¬ r ∈ regionNames s → rf r = none →
      ∃ row ∈ (goRegions df rf rs s).1.regions,
        row.region = r ∧ row.region_factor = pyFloatOne := by
  intro rs
  induction rs with
  | nil => intro s r h; cases h
  | cons r0 rs ih =>
    intro s r hr habs hmap
    simp only [goRegions]
    by_cases hrr : r = r0
    · subst hrr
      have hfind : s.regions.find? (fun row => row.region = r) = none :=
        (find?_region_eq_none_iff s r).mpr habs
      have hrow : (⟨s.nextId, r, pyFloatOne⟩ : RegionRow)
          ∈ (processRegion df rf r s).1.regions := by
        rw [processRegion_fst]
        simp [hfind, hmap]
      exact ⟨⟨s.nextId, r, pyFloatOne⟩,
        regions_goRegions_mono df rf rs _ _ hrow, rfl, rfl⟩
    · have hr' : r ∈ rs := by
        rcases List.mem_cons.mp hr with h | h
        · exact absurd h hrr
        · exact h
      refine ih _ r hr' ?_ hmap
      intro hmem
      rcases (mem_regionNames_processRegion df rf r0 r s).mp hmem with h | h
      · exact habs h
      · exact hrr h

theorem filter_eq_singleton_of_nodup (p : String) :
    ∀ (l : List String), l.Nodup → p ∈ l →
      l.filter (fun x => x = p) = [p] := by
  intro l
  induction l with
  | nil => intro _ h; cases h
  | cons a l ih =>
    intro hnd hp
    rcases List.mem_cons.mp hp with hp | hp
    · subst hp
      have hnotin : ¬ p ∈ l := (List.nodup_cons.mp hnd).1
      have : l.filter (fun x => x = p) = [] := by
        rw [List.filter_eq_nil_iff]
        intro x hx
        simp only [decide_eq_true_eq]
        exact fun hxp => hnotin (hxp ▸ hx)
      simp [List.filter_cons, this]
    · have ha : ¬ a = p := by
        intro hap
        exact (List.nodup_cons.mp hnd).1 (hap ▸ hp)
      simp [List.filter_cons, ha, ih (List.nodup_cons.mp hnd).2 hp]

theorem postcodesOf_nodup (df : List PRec) (r : String) :
    (postcodesOf df r).Nodup := firstSeen_nodup _

theorem goRegions_filter_stable (df : List PRec)
    (rf : String → Option PyFloat) :
    ∀ (rs : List String) (s : PStore) (p : String), p ∈ storedPostcodes s →
      (goRegions df rf rs s).1.postcodes.filter (fun q => q.postcode = p)
        = s.postcodes.filter (fun q => q.postcode = p) := by
  intro rs
  induction rs with
  | nil => intro s p _; simp [goRegions]
  | cons r rs ih =>
    intro s p hp
    simp only [goRegions]
    have hmem : p ∈ storedPostcodes (processRegion df rf r s).1 := by
      rw [storedPostcodes_processRegion]
      exact List.mem_append_left _ hp
    rw [ih _ p hmem]
    rw [processRegion_fst]
    simp only [List.filter_append]
    have hnil : ((((postcodesOf df r).filter
        (fun q => ¬ q ∈ storedPostcodes s)).map
          (fun q => PostcodeRow.mk (resolvedRegionId s r) q)).filter
            (fun q => q.postcode = p)) = [] := by
      rw [List.filter_eq_nil_iff]
      intro q hq
      obtain ⟨x, hx, hxq⟩ := List.mem_map.mp hq
      have hxnot : ¬ x ∈ storedPostcodes s := by
        have := (List.mem_filter.mp hx).2
        simpa using this
      simp only [decide_eq_true_eq, ← hxq]
      exact fun hxp => hxnot (hxp ▸ hp)
    rw [hnil, List.append_nil]

theorem goRegions_find?_stable (df : List PRec)
    (rf : String → Option PyFloat) :
    ∀ (rs : List String) (s : PStore) (r : String) (row : RegionRow),
      s.regions.find? (fun x => x.region = r) = some row →
      (goRegions df rf rs s).1.regions.find? (fun x => x.region = r)
        = some row := by
  intro rs
  induction rs with
  | nil => intro s r row h; simpa [goRegions] using h
  | cons r0 rs ih =>
    intro s r row h
    simp only [goRegions]
    refine ih _ r row ?_
    rw [processRegion_fst]
    cases hf : (s.regions.find? (fun x => x.region = r0)).isSome with
    | true => simpa [hf] using h
    | false =>
      simp only [hf, Bool.false_eq_true, if_false]
      rw [List.find?_append, h]
      rfl

theorem goRegions_nodup (df : List PRec) (rf : String → Option PyFloat) :
    ∀ (rs : List String) (s : PStore), (storedPostcodes s).Nodup →
      (storedPostcodes (goRegions df rf rs s).1).Nodup := by
  intro rs
  induction rs with
  | nil => intro s h; simpa [goRegions] using h
  | cons r rs ih =>
    intro s h
    simp only [goRegions]
    refine ih _ ?_
    rw [storedPostcodes_processRegion]
    refine List.Nodup.append h (List.Nodup.filter _ (postcodesOf_nodup df r)) ?_
    rw [List.disjoint_left]
    intro p hp hpfil
    have := (List.mem_filter.mp hpfil).2
    simp only [decide_eq_true_eq] at this
    exact this hp

theorem processRegion_resolved_find? (df : List PRec)
    (rf : String → Option PyFloat) (r : String) (s : PStore) :
    ∃ row, (processRegion df rf r s).1.regions.find? (fun x => x.region = r)
        = some row ∧ row.id = resolvedRegionId s r := by
  rw [processRegion_fst]
  cases hf : s.regions.find? (fun x => x.region = r) with
  | some row =>
    exact ⟨row, by simp [hf], by simp [resolvedRegionId, hf]⟩
  | none =>
    refine ⟨⟨s.nextId, r, (rf r).getD pyFloatOne⟩, ?_, by simp [resolvedRegionId, hf]⟩
    simp only [hf, Option.isSome_none, Bool.false_eq_true, if_false]
    rw [List.find?_append, hf]
    simp [List.find?_cons]

theorem goRegions_unique_insert (df : List PRec)
    (rf : String → Option PyFloat) :
    ∀ (rs : List String) (s : PStore) (p rstar : String),
      ¬ p ∈ storedPostcodes s →
      rs.find? (fun r => p ∈ postcodesOf df r) = some rstar →
      ∃ row, (goRegions df rf rs s).1.regions.find? (fun x => x.region = rstar)
          = some row ∧
        (goRegions df rf rs s).1.postcodes.filter (fun q => q.postcode = p)
          = [⟨row.id, p⟩] := by
  intro rs
  induction rs with
  | nil => intro s p rstar _ hfind; simp [List.find?] at hfind
  | cons r rs ih =>
    intro s p rstar hp hfind
    simp only [goRegions]
    by_cases hpr : p ∈ postcodesOf df r
    · have hrr : rstar = r := by
        rw [List.find?_cons] at hfind
        have hd : decide (p ∈ postcodesOf df r) = true := by simpa using hpr
        rw [hd] at hfind
        cases hfind
        rfl
      subst hrr
      obtain ⟨row, hrowfind, hrowid⟩ := processRegion_resolved_find? df rf rstar s
      have hmem : p ∈ storedPostcodes (processRegion df rf rstar s).1 := by
        rw [storedPostcodes_processRegion]
        refine List.mem_append_right _ ?_
        rw [List.mem_filter]
        exact ⟨hpr, by simpa using hp⟩
      have hfil : (processRegion df rf rstar s).1.postcodes.filter
          (fun q => q.postcode = p) = [⟨resolvedRegionId s rstar, p⟩] := by
        rw [processRegion_fst]
        simp only [List.filter_append]
        have hleft : s.postcodes.filter (fun q => q.postcode = p) = [] := by
          rw [List.filter_eq_nil_iff]
          intro q hq
          simp only [decide_eq_true_eq]
          exact fun hqp => hp (hqp ▸ List.mem_map.mpr ⟨q, hq, rfl⟩)
        have hnews : ((postcodesOf df rstar).filter
            (fun x => ¬ x ∈ storedPostcodes s)).filter (fun x => x = p) = [p] := by
          refine filter_eq_singleton_of_nodup p _
            (List.Nodup.filter _ (postcodesOf_nodup df rstar)) ?_
          rw [List.mem_filter]
          exact ⟨hpr, by simpa using hp⟩
        rw [hleft]
        rw [List.filter_map]
        have hcomp : ((fun q : PostcodeRow => decide (q.postcode = p)) ∘
            (fun x => PostcodeRow.mk (resolvedRegionId s rstar) x))
              = (fun x => decide (x = p)) := rfl
        rw [hcomp, hnews]
        rfl
      refine ⟨row, goRegions_find?_stable df rf rs _ rstar row hrowfind, ?_⟩
      rw [goRegions_filter_stable df rf rs _ p hmem, hfil, hrowid]
    · have hfind' : rs.find? (fun r0 => p ∈ postcodesOf df r0) = some rstar := by
        rw [List.find?_cons] at hfind
        simpa [hpr] using hfind
      have hp' : ¬ p ∈ storedPostcodes (processRegion df rf r s).1 := by
        rw [storedPostcodes_processRegion]
        intro hmem
        rcases List.mem_append.mp hmem with h | h
        · exact hp h
        · exact hpr (List.mem_filter.mp h).1
      exact ih _ p rstar hp' hfind'

/-! ### The failing-store region loop -/

theorem attemptedRegions_append (a b : List POp) :
    attemptedRegions (a ++ b) = attemptedRegions a ++ attemptedRegions b := by
  simp [attemptedRegions]

theorem attemptedRegions_processRegion (df : List PRec)
    (rf : String → Option PyFloat) (r : String) (s : PStore) :
    attemptedRegions (processRegion df rf r s).2 = [r] := by
  rw [processRegion_snd]
  cases hf : (s.regions.find? (fun row => row.region = r)).isSome <;>
    simp [hf, attemptedRegions, List.filterMap_append, List.filterMap_map,
      Function.comp]

theorem goRegionsE_ok_of_not_fail (fail : String → Bool) (df : List PRec)
    (rf : String → Option PyFloat) :
    ∀ (rs : List String) (s : PStore), (∀ r ∈ rs, ¬ fail r = true) →
      goRegionsE fail df rf rs s = .ok (goRegions df rf rs s) := by
  intro rs
  induction rs with
  | nil => intro s _; rfl
  | cons r rs ih =>
    intro s h
    have hfr : ¬ fail r = true := h r (List.mem_cons_self r rs)
    simp only [goRegionsE, goRegions]
    rw [if_neg hfr, ih _ (fun r' hr' => h r' (List.mem_cons_of_mem r hr'))]

theorem goRegionsE_error_of_fail (fail : String → Bool) (df : List PRec)
    (rf : String → Option PyFloat) :
    ∀ (rs : List String) (s : PStore), (∃ r ∈ rs, fail r = true) →
      ∃ s' tr, goRegionsE fail df rf rs s = .error (s', tr) ∧
        attemptedRegions tr = rs.takeWhile (fun r => ! fail r) := by
  intro rs
  induction rs with
  | nil => intro s h; obtain ⟨r, hr, _⟩ := h; cases hr
  | cons r rs ih =>
    intro s h
    by_cases hfr : fail r = true
    · refine ⟨s, [], ?_, ?_⟩
      · simp [goRegionsE, hfr]
      · simp [attemptedRegions, List.takeWhile_cons, hfr]
    · have hex : ∃ r' ∈ rs, fail r' = true := by
        obtain ⟨r', hr', hf'⟩ := h
        rcases List.mem_cons.mp hr' with hh | hh
        · exact absurd (hh ▸ hf') hfr
        · exact ⟨r', hh, hf'⟩
      obtain ⟨s2, tr2, herr, hatt⟩ := ih ((processRegion df rf r s).1) hex
      refine ⟨s2, (processRegion df rf r s).2 ++ tr2, ?_, ?_⟩
      · simp only [goRegionsE]
        rw [if_neg hfr, herr]
      · rw [attemptedRegions_append, attemptedRegions_processRegion, hatt]
        simp [List.takeWhile_cons, hfr]

/-! ### The vehicle loop -/

/-- The vehicle types whose existence check was executed, in trace order. -/
def vSelects (tr : List VOp) : List String :=
  tr.filterMap (fun op =>
    match op with
    | VOp.selectVehicle vt => some vt
    | _ => none)

theorem vSelects_cons_select (vt : String) (tr : List VOp) :
    vSelects (VOp.selectVehicle vt :: tr) = vt :: vSelects tr := rfl

theorem vSelects_cons_insert (vt : String) (f : PyFloat) (tr : List VOp) :
    vSelects (VOp.insertVehicle vt f :: tr) = vSelects tr := rfl

theorem goVehicles_selects (df : List VRec) :
    ∀ (vts : List String) (s : VStore),
      vSelects (goVehicles df vts s).2 = vts := by
  intro vts
  induction vts with
  | nil => intro s; rfl
  | cons vt vts ih =>
    intro s
    cases hf : s.vehicle.find? (fun row => row.vehicle_type = vt) with
    | some row =>
      simp only [goVehicles, hf]
      rw [vSelects_cons_select, ih]
    | none =>
      simp only [goVehicles, hf]
      rw [vSelects_cons_select, vSelects_cons_insert, ih]

theorem goVehicles_pairs (df : List VRec) :
    ∀ (vts : List String) (s : VStore), vts.Nodup →
      vehiclePairs (goVehicles df vts s).1 = vehiclePairs s ++
        vts.filterMap (fun vt =>
          if (s.vehicle.find? (fun row => row.vehicle_type = vt)).isSome
          then none
          else some (vt, firstVehicleFactor df vt)) := by
  intro vts
  induction vts with
  | nil => intro s _; simp [goVehicles]
  | cons vt vts ih =>
    intro s hnd
    cases hf : s.vehicle.find? (fun row => row.vehicle_type = vt) with
    | some row =>
      simp only [goVehicles, hf]
      rw [ih _ (List.nodup_cons.mp hnd).2, List.filterMap_cons, hf]
      simp only [Option.isSome_some, if_true]
    | none =>
      have hnotin : ¬ vt ∈ vts := (List.nodup_cons.mp hnd).1
      simp only [goVehicles, hf]
      rw [ih _ (List.nodup_cons.mp hnd).2, List.filterMap_cons, hf]
      simp only [Option.isSome_none, Bool.false_eq_true, if_false]
      have hpairs : vehiclePairs
          (⟨s.vehicle ++ [VehicleRow.mk s.nextId vt (firstVehicleFactor df vt)],
            s.nextId + 1⟩ : VStore)
          = vehiclePairs s ++ [(vt, firstVehicleFactor df vt)] := by
        simp [vehiclePairs]
      rw [hpairs, List.append_assoc]
      congr 1
      rw [List.singleton_append]
      congr 1
      refine List.filterMap_congr ?_
      intro vt' hvt'
      have hne : ¬ vt = vt' := fun hh => hnotin (hh ▸ hvt')
      have hsingle : List.find? (fun row => row.vehicle_type = vt')
          [VehicleRow.mk s.nextId vt (firstVehicleFactor df vt)] = none := by
        simp [List.find?_cons, hne]
      rw [List.find?_append, hsingle]
      cases hfv : s.vehicle.find? (fun row => row.vehicle_type = vt') <;>
        simp [hfv, Option.orElse]

/-! ### The yearly-mileage loop -/

theorem attemptedMileages_cons_select (f t : Int) (tr : List MOp) :
    attemptedMileages (MOp.selectMileage f t :: tr)
      = (f, t) :: attemptedMileages tr := rfl

theorem attemptedMileages_cons_log (f t : Int) (tr : List MOp) :
    attemptedMileages (MOp.logRangeError f t :: tr) = attemptedMileages tr := rfl

theorem attemptedMileages_cons_insert (f t : Int) (fac : PyFloat)
    (tr : List MOp) :
    attemptedMileages (MOp.insertMileage f t fac :: tr)
      = attemptedMileages tr := rfl

theorem goMileages_attempted (fail : Int × Int → Bool) (df : List MRec) :
    ∀ (prs : List (Int × Int)) (s : MStore),
      attemptedMileages (goMileages fail df prs s).2 = prs := by
  intro prs
  induction prs with
  | nil => intro s; rfl
  | cons pr prs ih =>
    intro s
    by_cases hfr : fail pr = true
    · simp only [goMileages, hfr, if_true]
      rw [attemptedMileages_cons_select, attemptedMileages_cons_log, ih]
    · cases hf : s.yearly_mileage.find? (fun row =>
        row.yearly_mileage_from = pr.1 ∧ row.yearly_mileage_to = pr.2) with
      | some row =>
        simp only [goMileages, hfr, Bool.false_eq_true, if_false, hf]
        rw [attemptedMileages_cons_select, ih]
      | none =>
        simp only [goMileages, hfr, Bool.false_eq_true, if_false, hf]
        rw [attemptedMileages_cons_select, attemptedMileages_cons_insert, ih]

theorem goMileages_logs (fail : Int × Int → Bool) (df : List MRec) :
    ∀ (prs : List (Int × Int)) (s : MStore) (pr : Int × Int),
      pr ∈ prs → fail pr = true →
      MOp.logRangeError pr.1 pr.2 ∈ (goMileages fail df prs s).2 := by
  intro prs
  induction prs with
  | nil => intro s pr h; cases h
  | cons pr0 prs ih =>
    intro s pr hpr hf
    rcases List.mem_cons.mp hpr with hpr | hpr
    · subst hpr
      simp only [goMileages, hf, if_true]
      exact List.mem_cons_of_mem _ (List.mem_cons_self _ _)
    · by_cases hfr : fail pr0 = true
      · simp only [goMileages, hfr, if_true]
        exact List.mem_cons_of_mem _ (List.mem_cons_of_mem _ (ih _ pr hpr hf))
      · cases hf0 : s.yearly_mileage.find? (fun row =>
          row.yearly_mileage_from = pr0.1 ∧ row.yearly_mileage_to = pr0.2) with
        | some row =>
          simp only [goMileages, hfr, Bool.false_eq_true, if_false, hf0]
          exact List.mem_cons_of_mem _ (ih _ pr hpr hf)
        | none =>
          simp only [goMileages, hfr, Bool.false_eq_true, if_false, hf0]
          exact List.mem_cons_of_mem _ (List.mem_cons_of_mem _ (ih _ pr hpr hf))

theorem goMileages_insert_mem (fail : Int × Int → Bool) (df : List MRec) :
    ∀ (prs : List (Int × Int)) (s : MStore) (g t : Int) (fac : PyFloat),
      MOp.insertMileage g t fac ∈ (goMileages fail df prs s).2 →
      (g, t) ∈ prs := by
  intro prs
  induction prs with
  | nil => intro s g t fac h; cases h
  | cons pr0 prs ih =>
    intro s g t fac h
    by_cases hfr : fail pr0 = true
    · simp only [goMileages, hfr, if_true] at h
      rcases List.mem_cons.mp h with h | h
      · cases h
      · rcases List.mem_cons.mp h with h | h
        · cases h
        · exact List.mem_cons_of_mem _ (ih _ g t fac h)
    · cases hf0 : s.yearly_mileage.find? (fun row =>
        row.yearly_mileage_from = pr0.1 ∧ row.yearly_mileage_to = pr0.2) with
      | some row =>
        simp only [goMileages, hfr, Bool.false_eq_true, if_false, hf0] at h
        rcases List.mem_cons.mp h with h | h
        · cases h
        · exact List.mem_cons_of_mem _ (ih _ g t fac h)
      | none =>
        simp only [goMileages, hfr, Bool.false_eq_true, if_false, hf0] at h
        rcases List.mem_cons.mp h with h | h
        · cases h
        · rcases List.mem_cons.mp h with h | h
          · cases h
            exact List.mem_cons_self pr0 prs
          · exact List.mem_cons_of_mem _ (ih _ g t fac h)

/-! ### Declarative characterisation of the 5-digit extraction -/

/-- Declarative reading of the spec's extraction rule: the character list
contains (at some position) five consecutive decimal digits. -/
def hasDigitRun5 (l : List Char) : Prop :=
  ∃ i, ((l.drop i).take 5).length = 5 ∧ ((l.drop i).take 5).all Char.isDigit

instance (l : List Char) : Decidable (hasDigitRun5 l) :=
  decidable_of_iff ((List.range l.length).any (fun i =>
    decide (((l.drop i).take 5).length = 5 ∧
      ((l.drop i).take 5).all Char.isDigit)) = true) (by
    rw [List.any_eq_true]
    constructor
    · rintro ⟨i, _, hi⟩
      rw [decide_eq_true_eq] at hi
      exact ⟨i, hi⟩
    · rintro ⟨i, h5, hall⟩
      refine ⟨i, List.mem_range.mpr ?_, by rw [decide_eq_true_eq]; exact ⟨h5, hall⟩⟩
      rw [List.length_take, List.length_drop] at h5
      omega)

theorem findRun5_eq_none_iff :
    ∀ (l : List Char), findRun5 l = none ↔ ¬ hasDigitRun5 l := by
  intro l
  induction l with
  | nil =>
    simp only [findRun5, true_iff]
    rintro ⟨i, h5, _⟩
    simp at h5
  | cons c cs ih =>
    by_cases hc : (((c :: cs).take 5).length = 5 ∧
        ((c :: cs).take 5).all Char.isDigit)
    · have heq : findRun5 (c :: cs) = some ((c :: cs).take 5) := by
        simp only [findRun5]
        rw [if_pos hc]
      refine iff_of_false (by rw [heq]; exact fun h => by cases h) ?_
      intro hneg
      exact hneg ⟨0, by simpa using hc⟩
    · have heq : findRun5 (c :: cs) = findRun5 cs := by
        simp only [findRun5]
        rw [if_neg hc]
      rw [heq, ih]
      refine not_congr ?_
      constructor
      · rintro ⟨i, h⟩
        exact ⟨i + 1, by simpa using h⟩
      · rintro ⟨i, h⟩
        cases i with
        | zero => exact absurd (by simpa using h) hc
        | succ j => exact ⟨j, by simpa using h⟩

theorem findRun5_some_spec :
    ∀ (l : List Char) (w : List Char), findRun5 l = some w →
      ∃ i, (l.drop i).take 5 = w ∧ w.length = 5 ∧ w.all Char.isDigit ∧
        ∀ j, j < i → ¬ (((l.drop j).take 5).length = 5 ∧
          ((l.drop j).take 5).all Char.isDigit) := by
  intro l
  induction l with
  | nil => intro w h; cases h
  | cons c cs ih =>
    intro w h
    by_cases hc : (((c :: cs).take 5).length = 5 ∧
        ((c :: cs).take 5).all Char.isDigit)
    · have heq : findRun5 (c :: cs) = some ((c :: cs).take 5) := by
        simp only [findRun5]
        rw [if_pos hc]
      rw [heq] at h
      cases h
      exact ⟨0, by simp, hc.1, hc.2, fun j hj => absurd hj (Nat.not_lt_zero j)⟩
    · have heq : findRun5 (c :: cs) = findRun5 cs := by
        simp only [findRun5]
        rw [if_neg hc]
      rw [heq] at h
      obtain ⟨i, hw, h5, hall, hmin⟩ := ih w h
      refine ⟨i + 1, by simpa using hw, h5, hall, ?_⟩
      intro j hj
      cases j with
      | zero => simpa using hc
      | succ j' => exact fun hbad => hmin j' (Nat.lt_of_succ_lt_succ hj) (by simpa using hbad)

theorem extract5_eq_none_iff (s : String) :
    extract5 s = none ↔ ¬ hasDigitRun5 (pyTrim s).toList := by
  unfold extract5
  rw [Option.map_eq_none']
  exact findRun5_eq_none_iff _

theorem extract5_some_spec (s : String) (w : String) (h : extract5 s = some w) :
    ∃ i, ((pyTrim s).toList.drop i).take 5 = w.toList ∧
      w.toList.length = 5 ∧ w.toList.all Char.isDigit ∧
      ∀ j, j < i → ¬ ((((pyTrim s).toList.drop j).take 5).length = 5 ∧
        (((pyTrim s).toList.drop j).take 5).all Char.isDigit) := by
  unfold extract5 at h
  cases hfr : findRun5 (pyTrim s).toList with
  | none => rw [hfr] at h; cases h
  | some w0 =>
    rw [hfr] at h
    cases h
    exact findRun5_some_spec _ w0 hfr

theorem filterMap_option_length {α β : Type} (g : α → Option β) :
    ∀ (l : List α),
      (l.filterMap g).length + (l.filter (fun a => (g a).isNone)).length
        = l.length := by
  intro l
  induction l with
  | nil => rfl
  | cons a as ih =>
    cases hga : g a with
    | some b =>
      rw [List.filterMap_cons, hga, List.filter_cons]
      simp only [hga, Option.isNone_some, Bool.false_eq_true, if_false,
        List.length_cons]
      omega
    | none =>
      rw [List.filterMap_cons, hga, List.filter_cons]
      simp only [hga, Option.isNone_none, if_true, List.length_cons]
      omega

/-! ### Inversion of a successful region-factor load -/

theorem regionRowEntry_key (hs row : List String) (k : String) (v : PyFloat)
    (h : regionRowEntry hs row = some (k, v)) :
    regionKeyOf hs row = some k := by
  unfold regionRowEntry at h
  unfold regionKeyOf
  cases hk : getCell hs row "REGION1" with
  | none => rw [hk] at h; cases h
  | some kc =>
    rw [hk] at h
    cases hv : getCell hs row "REGION_FACTOR" with
    | none => rw [hv] at h; cases h
    | some vc =>
      rw [hv] at h
      have h2 : (match parseFloat? vc with
        | some v => some (stripQuotes (pyTrim kc), v)
        | none => (none : Option (String × PyFloat))) = some (k, v) := h
      cases hp : parseFloat? vc with
      | none => rw [hp] at h2; cases h2
      | some v0 =>
        rw [hp] at h2
        cases h2
        simp [hk]

theorem mapOpt_regionKeys (hs : List String) :
    ∀ (rows : List (List String)) (entries : List (String × PyFloat)),
      mapOpt (regionRowEntry hs) rows = some entries →
      entries.map (fun p => p.1) = rows.filterMap (regionKeyOf hs) := by
  intro rows
  induction rows with
  | nil =>
    intro entries h
    simp only [mapOpt] at h
    cases h
    rfl
  | cons row rows ih =>
    intro entries h
    simp only [mapOpt] at h
    cases hg : regionRowEntry hs row with
    | none => rw [hg] at h; cases h
    | some kv =>
      rw [hg] at h
      cases hrest : mapOpt (regionRowEntry hs) rows with
      | none => rw [hrest] at h; cases h
      | some rest =>
        rw [hrest] at h
        cases h
        rw [List.filterMap_cons,
          regionRowEntry_key hs row kv.1 kv.2 (by rw [hg])]
        simp [ih rest hrest]

theorem load_region_factors_ok_inv (f : CsvFile) (d : List (String × PyFloat))
    (h : load_region_factors (some f) = .ok d) :
    ∃ entries, ¬ f.rows = [] ∧
      ("REGION1" ∈ f.headers.map pyTrim ∧
        "REGION_FACTOR" ∈ f.headers.map pyTrim) ∧
      mapOpt (regionRowEntry (f.headers.map pyTrim)) f.rows = some entries ∧
      d = dictOf entries := by
  have h' : (if f.rows = [] then
      (.error .Empty : Except LoadError (List (String × PyFloat)))
    else if "REGION1" ∈ f.headers.map pyTrim ∧
        "REGION_FACTOR" ∈ f.headers.map pyTrim then
      match mapOpt (regionRowEntry (f.headers.map pyTrim)) f.rows with
      | some entries => .ok (dictOf entries)
      | none => .error .TypeInvalid
    else .error .SchemaInvalid) = .ok d := h
  by_cases hr : f.rows = []
  · rw [if_pos hr] at h'; cases h'
  · rw [if_neg hr] at h'
    by_cases hh : ("REGION1" ∈ f.headers.map pyTrim ∧
        "REGION_FACTOR" ∈ f.headers.map pyTrim)
    · rw [if_pos hh] at h'
      cases hm : mapOpt (regionRowEntry (f.headers.map pyTrim)) f.rows with
      | none => rw [hm] at h'; cases h'
      | some entries =>
        rw [hm] at h'
        cases h'
        exact ⟨entries, hr, hh, rfl, rfl⟩
    · rw [if_neg hh] at h'; cases h'

theorem dlookup_dictOf_isSome_iff (es : List (String × PyFloat)) (k : String) :
    (dlookup (dictOf es) k).isSome = true ↔ k ∈ es.map (fun p => p.1) := by
  rw [dlookup_dictOf]
  cases hlast : (es.filter (fun p => p.1 = k)).getLast? with
  | none =>
    rw [List.getLast?_eq_none_iff] at hlast
    simp only [Option.map_none', Option.isSome_none, Bool.false_eq_true,
      false_iff]
    intro hmem
    obtain ⟨p, hp, hpk⟩ := List.mem_map.mp hmem
    have : p ∈ es.filter (fun p => p.1 = k) :=
      List.mem_filter.mpr ⟨hp, by simp [hpk]⟩
    rw [hlast] at this
    cases this
  | some p =>
    simp only [Option.map_some', Option.isSome_some, true_iff]
    have hx : p ∈ (es.filter (fun q => q.1 = k)).getLast? := by
      rw [Option.mem_def]
      exact hlast
    obtain ⟨hne, hpe⟩ := List.mem_getLast?_eq_getLast hx
    have hp : p ∈ es.filter (fun q => q.1 = k) := hpe ▸ List.getLast_mem hne
    have := List.mem_filter.mp hp
    exact List.mem_map.mpr ⟨p, this.1, by simpa using this.2⟩

/-- The parsed REGION_FACTOR of the last row of `f` whose normalised REGION1
value equals `k`. -/
def lastRegionFactorOf (f : CsvFile) (k : String) : Option PyFloat :=
  ((f.rows.filterMap (regionRowEntry (f.headers.map pyTrim))).filter
    (fun p => p.1 = k)).getLast?.map (fun p => p.2)

/-- The first region, in distinct-first-seen order, among whose postcodes
`p` occurs. -/
def firstRegionWith (df : List PRec) (p : String) : Option String :=
  (firstSeen (df.map (fun x => x.region))).find? (fun r => p ∈ postcodesOf df r)

/-! ### Claims -/

/-- C1: for every postcode record set, region-factor mapping and store
state, running `insert_postcodes` a second time with the same input against
the store produced by the first run executes zero additional `INSERT`
statements on the `regions` and `postcodes` tables. -/
theorem insert_postcodes_second_run_zero_inserts (df : List PRec)
    (rf : String → Option PyFloat) (s : PStore) :
    insertCount (insert_postcodes df rf (insert_postcodes df rf s).1).2 = 0 := by
  unfold insert_postcodes
  refine (goRegions_stable df rf _ _ ?_).2
  intro r hr
  exact ⟨(mem_regionNames_goRegions df rf _ s r).mpr (Or.inr hr),
    fun p hp => postcodesOf_mem_goRegions df rf _ s r hr p hp⟩

/-- C2: a run of `insert_postcodes` preserves global uniqueness of the
`postcode` column, and for every postcode value `p` of the input that is
not yet stored (in particular one shared by two regions of the same run),
exactly one `Postcode` row for `p` exists afterwards, linked to the region
row of whichever region occurs first, in first-seen order, among those
carrying `p`. -/
theorem insert_postcodes_postcode_globally_unique (df : List PRec)
    (rf : String → Option PyFloat) (s : PStore) (p : String)
    (hnodup : (storedPostcodes s).Nodup)
    (hnew : ¬ p ∈ storedPostcodes s)
    (hin : p ∈ df.map (fun x => x.postcode)) :
    (storedPostcodes (insert_postcodes df rf s).1).Nodup ∧
    ∃ r row, firstRegionWith df p = some r ∧
      (insert_postcodes df rf s).1.regions.find? (fun x => x.region = r)
        = some row ∧
      (insert_postcodes df rf s).1.postcodes.filter (fun q => q.postcode = p)
        = [⟨row.id, p⟩] := by
  constructor
  · exact goRegions_nodup df rf _ s hnodup
  · obtain ⟨x, hx, hxp⟩ := List.mem_map.mp hin
    have hr0mem : x.region ∈ firstSeen (df.map (fun y => y.region)) :=
      (mem_firstSeen _ _).mpr (List.mem_map.mpr ⟨x, hx, rfl⟩)
    have hp0 : p ∈ postcodesOf df x.region := by
      unfold postcodesOf
      rw [mem_firstSeen]
      exact List.mem_map.mpr ⟨x, List.mem_filter.mpr ⟨hx, by simp⟩, hxp⟩
    have hsome : ((firstSeen (df.map (fun y => y.region))).find?
        (fun r => p ∈ postcodesOf df r)).isSome :=
      List.find?_isSome.mpr ⟨x.region, hr0mem, by simpa using hp0⟩
    obtain ⟨rstar, hfind⟩ := Option.isSome_iff_exists.mp hsome
    obtain ⟨row, hrowf, hfil⟩ :=
      goRegions_unique_insert df rf _ s p rstar hnew hfind
    exact ⟨rstar, row, hfind, hrowf, hfil⟩

/-- Witness for C2 at a concrete input: two regions sharing postcode
`11111` against the empty store. -/
theorem insert_postcodes_postcode_globally_unique_witness :
    (storedPostcodes (⟨[], [], 0⟩ : PStore)).Nodup ∧
    ((storedPostcodes (insert_postcodes [⟨"A", "11111"⟩, ⟨"B", "11111"⟩]
        (fun _ => none) ⟨[], [], 0⟩).1).Nodup ∧
      ∃ r row, firstRegionWith [⟨"A", "11111"⟩, ⟨"B", "11111"⟩] "11111"
          = some r ∧
        (insert_postcodes [⟨"A", "11111"⟩, ⟨"B", "11111"⟩]
          (fun _ => none) ⟨[], [], 0⟩).1.regions.find?
            (fun x => x.region = r) = some row ∧
        (insert_postcodes [⟨"A", "11111"⟩, ⟨"B", "11111"⟩]
          (fun _ => none) ⟨[], [], 0⟩).1.postcodes.filter
            (fun q => q.postcode = "11111") = [⟨row.id, "11111"⟩]) :=
  ⟨by decide,
    insert_postcodes_postcode_globally_unique
      [⟨"A", "11111"⟩, ⟨"B", "11111"⟩] (fun _ => none) ⟨[], [], 0⟩ "11111"
      (by decide) (by decide) (by decide)⟩

/-- C5: a region name of the input that is absent from the factor mapping
and not yet stored gets its `Region` row created with `region_factor` equal
to the neutral default `1.0` instead of failing or storing a null. -/
theorem missing_region_factor_defaults_one (df : List PRec)
    (rf : String → Option PyFloat) (s : PStore) (r : String)
    (hmap : rf r = none) (hin : r ∈ df.map (fun x => x.region))
    (habs : ¬ r ∈ regionNames s) :
    ∃ row ∈ (insert_postcodes df rf s).1.regions,
      row.region = r ∧ row.region_factor = pyFloatOne := by
  unfold insert_postcodes
  exact goRegions_default_row df rf _ s r ((mem_firstSeen _ _).mpr hin)
    habs hmap

/-- Witness for C5 at a concrete input: one region, empty mapping, empty
store. -/
theorem missing_region_factor_defaults_one_witness :
    ((fun _ => (none : Option PyFloat)) "A" = none) ∧
    ∃ row ∈ (insert_postcodes [⟨"A", "11111"⟩] (fun _ => none)
        ⟨[], [], 0⟩).1.regions,
      row.region = "A" ∧ row.region_factor = pyFloatOne :=
  ⟨rfl, missing_region_factor_defaults_one [⟨"A", "11111"⟩] (fun _ => none)
    ⟨[], [], 0⟩ "A" rfl (by decide) (by decide)⟩

/-- C3 counterexample: with a store that raises on region `A`'s existence
check, `insert_postcodes` on the two-region input `[A, B]` returns the
raised error with an untouched store and an empty trace — region `B`
(the region after the failing one) is never attempted, contradicting the
claim that processing continues with regions `i+1` onward. -/
theorem insert_postcodes_failure_aborts_counterexample :
    ∃ tr, insert_postcodesE (fun r => r = "A")
        [⟨"A", "11111"⟩, ⟨"B", "22222"⟩] (fun _ => none) ⟨[], [], 0⟩
        = .error (⟨[], [], 0⟩, tr) ∧
      ¬ POp.selectRegion "B" ∈ tr ∧ attemptedRegions tr = [] :=
  ⟨[], rfl, by decide, rfl⟩

/-- C3 amended: a store failure on one region of `insert_postcodes` is
caught by the function-level handler, logged, and re-raised, ABORTING the
remaining regions: the whole operation returns the error, and the regions
whose existence check was executed are exactly those strictly before the
first failing region (the `try/except` wraps the whole loop, not each
iteration). -/
theorem insert_postcodes_store_error_aborts_rest (fail : String → Bool)
    (df : List PRec) (rf : String → Option PyFloat) (s : PStore) (r : String)
    (hr : r ∈ firstSeen (df.map (fun x => x.region))) (hf : fail r = true) :
    ∃ s' tr, insert_postcodesE fail df rf s = .error (s', tr) ∧
      attemptedRegions tr =
        (firstSeen (df.map (fun x => x.region))).takeWhile
          (fun x => ! fail x) := by
  unfold insert_postcodesE
  exact goRegionsE_error_of_fail fail df rf _ s ⟨r, hr, hf⟩

/-- Witness for the amended C3 at a concrete input: failing on `A`, only
the regions before `A` (none) are attempted. -/
theorem insert_postcodes_store_error_aborts_rest_witness :
    ("A" ∈ firstSeen (([⟨"A", "11111"⟩, ⟨"B", "22222"⟩] : List PRec).map
        (fun x => x.region))) ∧
    ∃ s' tr, insert_postcodesE (fun r => r = "A")
        [⟨"A", "11111"⟩, ⟨"B", "22222"⟩] (fun _ => none) ⟨[], [], 0⟩
        = .error (s', tr) ∧
      attemptedRegions tr =
        (firstSeen (([⟨"A", "11111"⟩, ⟨"B", "22222"⟩] : List PRec).map
          (fun x => x.region))).takeWhile (fun x => ! (x = "A" : Bool)) :=
  ⟨by decide, insert_postcodes_store_error_aborts_rest (fun r => r = "A")
    [⟨"A", "11111"⟩, ⟨"B", "22222"⟩] (fun _ => none) ⟨[], [], 0⟩ "A"
    (by decide) (by decide)⟩

theorem load_csv_ok (rows : List (List String)) (h1 : ¬ rows = [])
    (h2 : ¬ ((rows.head?.map List.length).getD 0) < 7) :
    load_csv (some rows) = .ok
      (((projPostcodeRows rows).map (fun p => (p.1, extract5 p.2))).filterMap
        (fun p => p.2.map
          (fun pc => PRec.mk (stripQuotes (pyTrim p.1)) (zfill5 pc))),
       (((projPostcodeRows rows).map (fun p => (p.1, extract5 p.2))).filter
        (fun p => p.2 = none)).length) := by
  have h' : load_csv (some rows) =
      (if rows = [] then .error .Empty
       else if ((rows.head?.map List.length).getD 0) < 7 then
         .error .SchemaInvalid
       else .ok
        (((projPostcodeRows rows).map (fun p => (p.1, extract5 p.2))).filterMap
          (fun p => p.2.map
            (fun pc => PRec.mk (stripQuotes (pyTrim p.1)) (zfill5 pc))),
         (((projPostcodeRows rows).map (fun p => (p.1, extract5 p.2))).filter
          (fun p => p.2 = none)).length)) := rfl
  rw [h', if_neg h1, if_neg h2]

/-- C4 counterexample: a postcode field holding the 6-digit run `123456`
DOES yield a match — its 5-digit prefix `12345` — and the row is kept
(zero rows dropped), contradicting the claim that a digit run longer than
5 yields no match and excludes the row. -/
theorem extract5_six_digit_run_counterexample :
    extract5 "123456" = some "12345" ∧
    load_csv (some [["DE", "b", "X", "d", "e", "f", "123456"]])
      = .ok ([⟨"X", "12345"⟩], 0) := ⟨rfl, rfl⟩

/-- C4 amended: the postcode normaliser accepts a field exactly when it
contains a run of AT LEAST 5 consecutive decimal digits; the extracted
value is the leftmost window of 5 consecutive digits (so a 6-digit run
yields its 5-digit prefix, not a non-match); rows whose field has no such
window are dropped without raising, and the count of dropped rows is
reported. -/
theorem postcode_extraction_amended (s : String) (rows : List (List String))
    (h1 : ¬ rows = []) (h2 : ¬ ((rows.head?.map List.length).getD 0) < 7) :
    (extract5 s = none ↔ ¬ hasDigitRun5 (pyTrim s).toList) ∧
    (∀ w, extract5 s = some w →
      ∃ i, ((pyTrim s).toList.drop i).take 5 = w.toList ∧
        w.toList.length = 5 ∧ w.toList.all Char.isDigit ∧
        ∀ j, j < i → ¬ ((((pyTrim s).toList.drop j).take 5).length = 5 ∧
          (((pyTrim s).toList.drop j).take 5).all Char.isDigit)) ∧
    (∃ recs dropped, load_csv (some rows) = .ok (recs, dropped) ∧
      dropped = ((projPostcodeRows rows).filter
        (fun p => ¬ hasDigitRun5 (pyTrim p.2).toList)).length ∧
      recs.length + dropped = (projPostcodeRows rows).length) := by
  refine ⟨extract5_eq_none_iff s, fun w hw => extract5_some_spec s w hw, ?_⟩
  refine ⟨_, _, load_csv_ok rows h1 h2, ?_, ?_⟩
  · rw [List.filter_map, List.length_map]
    congr 1
    refine List.filter_congr ?_
    intro p hp
    simp only [Function.comp]
    rw [decide_eq_decide]
    exact extract5_eq_none_iff p.2
  · rw [List.filterMap_map, List.filter_map, List.length_map]
    have heq : (projPostcodeRows rows).filter
        ((fun q : String × Option String => decide (q.2 = none)) ∘
          (fun p : String × String => (p.1, extract5 p.2)))
        = (projPostcodeRows rows).filter (fun p =>
          (((fun q : String × Option String => q.2.map (fun pc =>
              PRec.mk (stripQuotes (pyTrim q.1)) (zfill5 pc))) ∘
            (fun p : String × String => (p.1, extract5 p.2))) p).isNone) := by
      refine List.filter_congr ?_
      intro p hp
      cases hx : extract5 p.2 <;> simp [Function.comp, hx]
    rw [heq]
    exact filterMap_option_length _ _

/-- Witness for the amended C4 at a concrete input: the 6-digit field
`123456`. -/
theorem postcode_extraction_amended_witness :
    (¬ ([["DE", "b", "X", "d", "e", "f", "123456"]] : List (List String)) = []) ∧
    ((extract5 "123456" = none ↔
        ¬ hasDigitRun5 (pyTrim "123456").toList) ∧
      (∀ w, extract5 "123456" = some w →
        ∃ i, ((pyTrim "123456").toList.drop i).take 5 = w.toList ∧
          w.toList.length = 5 ∧ w.toList.all Char.isDigit ∧
          ∀ j, j < i →
            ¬ ((((pyTrim "123456").toList.drop j).take 5).length = 5 ∧
              (((pyTrim "123456").toList.drop j).take 5).all Char.isDigit)) ∧
      (∃ recs dropped,
        load_csv (some [["DE", "b", "X", "d", "e", "f", "123456"]])
          = .ok (recs, dropped) ∧
        dropped = ((projPostcodeRows
            [["DE", "b", "X", "d", "e", "f", "123456"]]).filter
          (fun p => ¬ hasDigitRun5 (pyTrim p.2).toList)).length ∧
        recs.length + dropped = (projPostcodeRows
          [["DE", "b", "X", "d", "e", "f", "123456"]]).length)) :=
  ⟨by decide, postcode_extraction_amended "123456" _ (by decide) (by decide)⟩

/-! ### Inversion of a successful mileage load -/

theorem mapOpt_mem_some {α β : Type} (g : α → Option β) :
    ∀ (l : List α) (bs : List β), mapOpt g l = some bs →
      ∀ a ∈ l, ∃ b, g a = some b := by
  intro l
  induction l with
  | nil => intro bs _ a ha; cases ha
  | cons a0 as ih =>
    intro bs h a ha
    simp only [mapOpt] at h
    cases hg : g a0 with
    | none => rw [hg] at h; cases h
    | some b0 =>
      rw [hg] at h
      cases hrest : mapOpt g as with
      | none => rw [hrest] at h; cases h
      | some bs0 =>
        rcases List.mem_cons.mp ha with ha | ha
        · exact ⟨b0, ha ▸ hg⟩
        · exact ih bs0 hrest a ha

theorem load_yearly_ok_inv (f : CsvFile) (recs : List MRec)
    (h : load_yearly_milaege_factors (some f) = .ok recs) :
    mapOpt (mileageRowRec (f.headers.map pyTrim)) f.rows = some recs := by
  have h' : (if f.rows = [] then (.error .Empty : Except LoadError (List MRec))
      else if ("YEARLY_MILEAGE_FROM" ∈ f.headers.map pyTrim ∧
          "YEARLY_MILEAGE_TO" ∈ f.headers.map pyTrim ∧
          "FACTOR" ∈ f.headers.map pyTrim) then
        match mapOpt (mileageRowRec (f.headers.map pyTrim)) f.rows with
        | some recs => .ok recs
        | none => .error .TypeInvalid
      else .error .SchemaInvalid) = .ok recs := h
  by_cases hr : f.rows = []
  · rw [if_pos hr] at h'; cases h'
  · rw [if_neg hr] at h'
    by_cases hh : ("YEARLY_MILEAGE_FROM" ∈ f.headers.map pyTrim ∧
        "YEARLY_MILEAGE_TO" ∈ f.headers.map pyTrim ∧
        "FACTOR" ∈ f.headers.map pyTrim)
    · rw [if_pos hh] at h'
      cases hm : mapOpt (mileageRowRec (f.headers.map pyTrim)) f.rows with
      | none => rw [hm] at h'; cases h'
      | some recs0 =>
        rw [hm] at h'
        cases h'
        rfl
    · rw [if_neg hh] at h'; cases h'

theorem mileageRowRec_to (hs row : List String) (rec : MRec) (tc : String)
    (h : mileageRowRec hs row = some rec)
    (htc : getCell hs row "YEARLY_MILEAGE_TO" = some tc) :
    toCellValue tc = some rec.yearly_mileage_to := by
  unfold mileageRowRec at h
  cases hfc : getCell hs row "YEARLY_MILEAGE_FROM" with
  | none => rw [hfc] at h; cases h
  | some fc =>
    rw [hfc, htc] at h
    cases hxc : getCell hs row "FACTOR" with
    | none => rw [hxc] at h; cases h
    | some xc =>
      rw [hxc] at h
      have h2 : (match parseInt? fc, toCellValue tc, parseFloat? xc with
        | some f, some t, some x => some (⟨f, t, x⟩ : MRec)
        | _, _, _ => none) = some rec := h
      cases hf : parseInt? fc with
      | none => rw [hf] at h2; cases h2
      | some fv =>
        rw [hf] at h2
        cases ht : toCellValue tc with
        | none => rw [ht] at h2; cases h2
        | some tv =>
          rw [ht] at h2
          cases hx : parseFloat? xc with
          | none => rw [hx] at h2; cases h2
          | some xv =>
            rw [hx] at h2
            cases h2
            rfl

/-- C6: in the loaded yearly-mileage records, a YEARLY_MILEAGE_TO cell
whose normalised text is the literal `-1` becomes 100,000,000 (before
integer coercion), any other integer cell is coerced unchanged, and
`insert_yearly_mileage_factors` persists each inserted row with the
`(from, to)` values of a source record — so a `-1` source row is persisted
with `yearly_mileage_to = 100,000,000`. -/
theorem yearly_mileage_to_sentinel (f : CsvFile) (recs : List MRec)
    (i : Nat) (row : List String) (tc : String)
    (hload : load_yearly_milaege_factors (some f) = .ok recs)
    (hrow : f.rows.get? i = some row)
    (htc : getCell (f.headers.map pyTrim) row "YEARLY_MILEAGE_TO" = some tc) :
    (stripQuotes (pyTrim tc) = "-1" →
      (recs.get? i).map (fun x => x.yearly_mileage_to) = some 100000000) ∧
    (∀ n : Int, ¬ stripQuotes (pyTrim tc) = "-1" →
      parseInt? (stripQuotes (pyTrim tc)) = some n →
      (recs.get? i).map (fun x => x.yearly_mileage_to) = some n) ∧
    (∀ (df : List MRec) (s : MStore) (g t : Int) (fac : PyFloat),
      MOp.insertMileage g t fac ∈ (insert_yearly_mileage_factors df s).2 →
      ∃ x ∈ df, x.yearly_mileage_from = g ∧ x.yearly_mileage_to = t) := by
  have hmap := load_yearly_ok_inv f recs hload
  have hget := mapOpt_get? _ f.rows recs hmap i
  rw [hrow] at hget
  have hrowmem : row ∈ f.rows := by
    have := List.get?_eq_some.mp hrow
    obtain ⟨hlt, hval⟩ := this
    exact hval ▸ List.get_mem f.rows i hlt
  obtain ⟨rec, hrec⟩ := mapOpt_mem_some _ f.rows recs hmap row hrowmem
  have hto := mileageRowRec_to _ row rec tc hrec htc
  have hgeti : recs.get? i = some rec := by
    rw [hget]
    simpa using hrec
  refine ⟨?_, ?_, ?_⟩
  · intro hs1
    have hval : toCellValue tc = some 100000000 := by
      unfold toCellValue
      rw [hs1]
      rfl
    rw [hval] at hto
    injection hto with h3
    rw [hgeti]
    simp [← h3]
  · intro n hne hpn
    have hval : toCellValue tc = some n := by
      unfold toCellValue
      rw [if_neg hne]
      exact hpn
    rw [hval] at hto
    injection hto with h3
    rw [hgeti]
    simp [← h3]
  · intro df s g t fac hmem
    unfold insert_yearly_mileage_factors insert_yearly_mileage_factorsE at hmem
    have hpair := goMileages_insert_mem (fun _ => false) df _ s g t fac hmem
    rw [mem_firstSeen] at hpair
    obtain ⟨x, hx, hxp⟩ := List.mem_map.mp hpair
    exact ⟨x, hx, congrArg Prod.fst hxp, congrArg Prod.snd hxp⟩

/-- Witness for C6 at a concrete input: a mileage CSV whose TO cell is
`-1`. -/
theorem yearly_mileage_to_sentinel_witness :
    (load_yearly_milaege_factors (some ⟨["YEARLY_MILEAGE_FROM",
        "YEARLY_MILEAGE_TO", "FACTOR"], [["0", "-1", "1.5"]]⟩)
      = .ok [⟨0, 100000000, ⟨15, 1⟩⟩]) ∧
    ((stripQuotes (pyTrim "-1") = "-1" →
      (([⟨0, 100000000, ⟨15, 1⟩⟩] : List MRec).get? 0).map
        (fun x => x.yearly_mileage_to) = some 100000000) ∧
    (∀ n : Int, ¬ stripQuotes (pyTrim "-1") = "-1" →
      parseInt? (stripQuotes (pyTrim "-1")) = some n →
      (([⟨0, 100000000, ⟨15, 1⟩⟩] : List MRec).get? 0).map
        (fun x => x.yearly_mileage_to) = some n) ∧
    (∀ (df : List MRec) (s : MStore) (g t : Int) (fac : PyFloat),
      MOp.insertMileage g t fac ∈ (insert_yearly_mileage_factors df s).2 →
      ∃ x ∈ df, x.yearly_mileage_from = g ∧ x.yearly_mileage_to = t)) :=
  ⟨by rfl, yearly_mileage_to_sentinel
    ⟨["YEARLY_MILEAGE_FROM", "YEARLY_MILEAGE_TO", "FACTOR"],
      [["0", "-1", "1.5"]]⟩
    [⟨0, 100000000, ⟨15, 1⟩⟩] 0 ["0", "-1", "1.5"] "-1"
    (by rfl) (by rfl) (by rfl)⟩

/-- C8: in `insert_yearly_mileage_factors`, even when the store existence
check raises for one `(from, to)` range, EVERY distinct range of the run
is still attempted (the per-item `try/except`), and the failing range is
logged with the offending range identified. -/
theorem insert_yearly_mileage_per_item_isolation (fail : Int × Int → Bool)
    (df : List MRec) (s : MStore) (pr : Int × Int)
    (hpr : pr ∈ firstSeen (df.map
      (fun x => (x.yearly_mileage_from, x.yearly_mileage_to))))
    (hf : fail pr = true) :
    attemptedMileages (insert_yearly_mileage_factorsE fail df s).2
      = firstSeen (df.map
          (fun x => (x.yearly_mileage_from, x.yearly_mileage_to))) ∧
    MOp.logRangeError pr.1 pr.2
      ∈ (insert_yearly_mileage_factorsE fail df s).2 := by
  unfold insert_yearly_mileage_factorsE
  exact ⟨goMileages_attempted fail df _ s, goMileages_logs fail df _ s pr hpr hf⟩

/-- Witness for C8 at a concrete input: two ranges, the first failing. -/
theorem insert_yearly_mileage_per_item_isolation_witness :
    (((0 : Int), (10000 : Int)) ∈ firstSeen
      (([⟨0, 10000, ⟨1, 0⟩⟩, ⟨10000, 20000, ⟨11, 1⟩⟩] : List MRec).map
        (fun x => (x.yearly_mileage_from, x.yearly_mileage_to)))) ∧
    (attemptedMileages (insert_yearly_mileage_factorsE
        (fun pr => pr.1 = 0) [⟨0, 10000, ⟨1, 0⟩⟩, ⟨10000, 20000, ⟨11, 1⟩⟩]
        ⟨[], 0⟩).2
      = firstSeen (([⟨0, 10000, ⟨1, 0⟩⟩, ⟨10000, 20000, ⟨11, 1⟩⟩] :
          List MRec).map
          (fun x => (x.yearly_mileage_from, x.yearly_mileage_to))) ∧
    MOp.logRangeError 0 10000
      ∈ (insert_yearly_mileage_factorsE (fun pr => pr.1 = 0)
        [⟨0, 10000, ⟨1, 0⟩⟩, ⟨10000, 20000, ⟨11, 1⟩⟩] ⟨[], 0⟩).2) :=
  ⟨by decide, insert_yearly_mileage_per_item_isolation (fun pr => pr.1 = 0)
    [⟨0, 10000, ⟨1, 0⟩⟩, ⟨10000, 20000, ⟨11, 1⟩⟩] ⟨[], 0⟩ (0, 10000)
    (by decide) (by decide)⟩

theorem load_region_factors_some_eq (f : CsvFile) :
    load_region_factors (some f) =
      (if f.rows = [] then .error .Empty
       else if ("REGION1" ∈ f.headers.map pyTrim ∧
           "REGION_FACTOR" ∈ f.headers.map pyTrim) then
         match mapOpt (regionRowEntry (f.headers.map pyTrim)) f.rows with
         | some entries => .ok (dictOf entries)
         | none => .error .TypeInvalid
       else .error .SchemaInvalid) := rfl

/-- C7 counterexample: a file whose headers lack REGION_FACTOR but which
has zero data rows fails with the Empty kind, not SchemaInvalid — the
emptiness check precedes the schema check, so "fails with SchemaInvalid
iff a required column is missing" is false as stated. -/
theorem load_region_factors_schema_iff_counterexample :
    ¬ "REGION_FACTOR" ∈ (["REGION1", "X"].map pyTrim) ∧
    load_region_factors (some ⟨["REGION1", "X"], []⟩) = .error .Empty ∧
    (∀ e, load_region_factors (some ⟨["REGION1", "X"], []⟩) = .error e →
      e = LoadError.Empty) :=
  ⟨by decide, rfl, fun e h => by
    have h2 : (Except.error LoadError.Empty :
        Except LoadError (List (String × PyFloat))) = .error e := h
    injection h2 with h3
    exact h3.symm⟩

/-- C7 amended: `load_region_factors` fails with NotFound iff the path
does not exist; GIVEN the file exists, with Empty iff it has zero data
rows; GIVEN it exists and has at least one data row, with SchemaInvalid
iff REGION1 or REGION_FACTOR is missing from the trimmed headers (the
checks apply in that order, so an empty file with missing columns reports
Empty); and every successful load returns the mapping whose key set is
exactly the trimmed, quote-stripped REGION1 values and whose value at each
key is that key's (last) REGION_FACTOR parsed as float. -/
theorem load_region_factors_error_taxonomy (file : Option CsvFile) :
    (load_region_factors file = .error .NotFound ↔ file = none) ∧
    (∀ f, file = some f →
      (load_region_factors file = .error .Empty ↔ f.rows = [])) ∧
    (∀ f, file = some f → ¬ f.rows = [] →
      (load_region_factors file = .error .SchemaInvalid ↔
        ¬ ("REGION1" ∈ f.headers.map pyTrim ∧
           "REGION_FACTOR" ∈ f.headers.map pyTrim))) ∧
    (∀ f d, file = some f → load_region_factors file = .ok d →
      (∀ k, (dlookup d k).isSome = true ↔
        k ∈ f.rows.filterMap (regionKeyOf (f.headers.map pyTrim))) ∧
      (∀ k, dlookup d k = lastRegionFactorOf f k)) := by
  refine ⟨?_, ?_, ?_, ?_⟩
  · cases file with
    | none => simp [load_region_factors]
    | some f =>
      rw [load_region_factors_some_eq]
      refine iff_of_false ?_ (by simp)
      by_cases hr : f.rows = []
      · rw [if_pos hr]
        intro h
        injection h with h2
        cases h2
      · rw [if_neg hr]
        by_cases hh : ("REGION1" ∈ f.headers.map pyTrim ∧
            "REGION_FACTOR" ∈ f.headers.map pyTrim)
        · rw [if_pos hh]
          cases hm : mapOpt (regionRowEntry (f.headers.map pyTrim)) f.rows with
          | some entries => intro h; cases h
          | none => intro h; injection h with h2; cases h2
        · rw [if_neg hh]
          intro h
          injection h with h2
          cases h2
  · intro f hfile
    subst hfile
    rw [load_region_factors_some_eq]
    by_cases hr : f.rows = []
    · rw [if_pos hr]
      exact iff_of_true rfl hr
    · rw [if_neg hr]
      refine iff_of_false ?_ hr
      by_cases hh : ("REGION1" ∈ f.headers.map pyTrim ∧
          "REGION_FACTOR" ∈ f.headers.map pyTrim)
      · rw [if_pos hh]
        cases hm : mapOpt (regionRowEntry (f.headers.map pyTrim)) f.rows with
        | some entries => intro h; cases h
        | none => intro h; injection h with h2; cases h2
      · rw [if_neg hh]
        intro h
        injection h with h2
        cases h2
  · intro f hfile hrows
    subst hfile
    rw [load_region_factors_some_eq, if_neg hrows]
    by_cases hh : ("REGION1" ∈ f.headers.map pyTrim ∧
        "REGION_FACTOR" ∈ f.headers.map pyTrim)
    · rw [if_pos hh]
      refine iff_of_false ?_ (fun hc => hc hh)
      cases hm : mapOpt (regionRowEntry (f.headers.map pyTrim)) f.rows with
      | some entries => intro h; cases h
      | none => intro h; injection h with h2; cases h2
    · rw [if_neg hh]
      exact iff_of_true rfl hh
  · intro f d hfile hok
    subst hfile
    obtain ⟨entries, _, _, hm, hd⟩ := load_region_factors_ok_inv f d hok
    subst hd
    constructor
    · intro k
      rw [dlookup_dictOf_isSome_iff, mapOpt_regionKeys _ f.rows entries hm]
    · intro k
      rw [dlookup_dictOf]
      unfold lastRegionFactorOf
      rw [mapOpt_eq_some_filterMap _ _ _ hm]

/-- Witness for the amended C7 at a concrete input: the Empty clause
evaluated on a header-only file. -/
theorem load_region_factors_error_taxonomy_witness :
    load_region_factors (some ⟨["REGION1", "X"], []⟩) = .error .Empty ↔
      (⟨["REGION1", "X"], []⟩ : CsvFile).rows = [] :=
  (load_region_factors_error_taxonomy (some ⟨["REGION1", "X"], []⟩)).2.1
    ⟨["REGION1", "X"], []⟩ rfl

/-- C9: `insert_vehicle_factors` executes the existence checks on the
distinct vehicle types in first-seen order, appends exactly the rows for
the types absent from the store, each with the factor of the type's FIRST
source occurrence; in particular the CSV rows `SUV, 1.2` and `LKW, 1.4`
(decimals encoded as mantissa/scale) against the empty store produce
exactly those two `(type, factor)` rows via two inserts, and a repeated
run performs zero inserts. -/
theorem insert_vehicle_factors_first_seen_reconcile (df : List VRec)
    (s : VStore) :
    vSelects (insert_vehicle_factors df s).2
      = firstSeen (df.map (fun x => x.vehicle_type)) ∧
    vehiclePairs (insert_vehicle_factors df s).1 = vehiclePairs s ++
      (firstSeen (df.map (fun x => x.vehicle_type))).filterMap (fun vt =>
        if (s.vehicle.find? (fun row => row.vehicle_type = vt)).isSome
        then none
        else some (vt, firstVehicleFactor df vt)) ∧
    vehiclePairs (insert_vehicle_factors
        [⟨"SUV", ⟨12, 1⟩⟩, ⟨"LKW", ⟨14, 1⟩⟩] ⟨[], 0⟩).1
      = [("SUV", ⟨12, 1⟩), ("LKW", ⟨14, 1⟩)] ∧
    vInsertCount (insert_vehicle_factors
        [⟨"SUV", ⟨12, 1⟩⟩, ⟨"LKW", ⟨14, 1⟩⟩] ⟨[], 0⟩).2 = 2 ∧
    vInsertCount (insert_vehicle_factors [⟨"SUV", ⟨12, 1⟩⟩, ⟨"LKW", ⟨14, 1⟩⟩]
        (insert_vehicle_factors [⟨"SUV", ⟨12, 1⟩⟩, ⟨"LKW", ⟨14, 1⟩⟩]
          ⟨[], 0⟩).1).2 = 0 :=
  ⟨goVehicles_selects df _ s,
   goVehicles_pairs df _ s (firstSeen_nodup _),
   rfl, rfl, rfl⟩

/-- C10: when the region-factor CSV contains duplicate (trimmed,
quote-stripped) REGION1 values, the returned mapping binds the duplicated
key to the factor of its LAST occurrence in the file — later rows silently
overwrite earlier ones. -/
theorem load_region_factors_duplicate_last_wins (f : CsvFile)
    (d : List (String × PyFloat)) (k : String)
    (hload : load_region_factors (some f) = .ok d)
    (_hdup : 1 < ((f.rows.filterMap
      (regionKeyOf (f.headers.map pyTrim))).countP (fun q => q = k))) :
    dlookup d k = lastRegionFactorOf f k := by
  obtain ⟨entries, _, _, hm, hd⟩ := load_region_factors_ok_inv f d hload
  subst hd
  rw [dlookup_dictOf]
  unfold lastRegionFactorOf
  rw [mapOpt_eq_some_filterMap _ _ _ hm]

/-- Witness for C10 at a concrete input: the key `A` occurring twice with
factors 1.5 then 2.5; the mapping holds 2.5. -/
theorem load_region_factors_duplicate_last_wins_witness :
    (load_region_factors (some ⟨["REGION1", "REGION_FACTOR"],
        [["A", "1.5"], ["A", "2.5"]]⟩) = .ok [("A", ⟨25, 1⟩)]) ∧
    (1 < (((⟨["REGION1", "REGION_FACTOR"],
        [["A", "1.5"], ["A", "2.5"]]⟩ : CsvFile)).rows.filterMap
      (regionKeyOf (["REGION1", "REGION_FACTOR"].map pyTrim))).countP
        (fun q => q = "A")) ∧
    dlookup [("A", ⟨25, 1⟩)] "A" = lastRegionFactorOf
      ⟨["REGION1", "REGION_FACTOR"], [["A", "1.5"], ["A", "2.5"]]⟩ "A" :=
  ⟨by rfl, by decide,
    load_region_factors_duplicate_last_wins _ _ "A" (by rfl) (by decide)⟩

end SetInitialData
